import Mathlib

/-!
# Verification of the dispatch engine of `src/index.js`

A shallow embedding of `checkAndSendNotifications` (the dispatch decision
engine of the notification service) together with proofs of the spec's
claims about it.

Modelling conventions:
* The Firestore document store is a `DB`: a list of user documents, each
  carrying its `fcmTokens` subcollection (token documents) and its
  `pushNotifications` subcollection (notification id paired with data).
* A Firestore document path such as `users/{uid}/pushNotifications/{id}`
  is represented already split at the slashes, as the segment list
  `["users", uid, "pushNotifications", id]`; `doc.ref.path.split("/")`
  in the JS therefore corresponds to the segment list itself, and
  `pathParts[1]` to `getD 1`.
* The status enumeration is kept as the code's strings: the pending state
  is the string `"scheduled"`, the terminal states are `"sent"` and
  `"failed"`.
* `admin.messaging().sendEachForMulticast` is an external gateway; it is
  modelled by an oracle `Env.gateway : Nat → GatewayResult` consulted on
  the index of the call within the cycle (the call is also appended to a
  call log, recording the token list targeted).  A `GatewayResult` is
  either a wholesale `failure` (the JS call throwing) or a `success`
  carrying the per-address outcome list, aligned with the token list as
  in the FCM response (`responses[idx]` pairs with `tokens[idx]`).
* Token deletions (`.delete().catch(...)`) can fail; the oracle
  `Env.deleteFails` says which deletions error.  The JS swallows the
  error in `.catch`, so a failed deletion leaves the store unchanged.
* The token fetch for a user (`db.collection("users").doc(userId)
  .collection("fcmTokens").get()`) can throw; the oracle
  `Env.tokenFetchFails` says for which users it does.  The resolver
  query itself can also throw (`Env.resolverFails`).  These are the only
  store operations given a failure mode; notification `update` writes
  are modelled as always succeeding.
* `admin.firestore.FieldValue.serverTimestamp()` is the abstract write
  time `Env.serverTs`.
-/

/-- One document of a user's `fcmTokens` subcollection: the document id is
the FCM token string itself; the data may carry the registering device id. -/
structure TokenDoc where
  id : String
  deviceId : Option String
deriving DecidableEq, Repr

/-- Success/failure counts recorded on a notification from an FCM
multicast response (`fcmResponse` field written by the code). -/
structure FcmCounts where
  successCount : Nat
  failureCount : Nat
deriving DecidableEq, Repr

/-- The data of one `pushNotifications` document.  `fireAt`, `status`,
`deviceId`, `title`, `body` and the payload fields exist at creation; the
remaining fields are written by the dispatch cycle's `update` calls and
start out absent. -/
structure NotifData where
  fireAt : Int
  status : String
  deviceId : Option String
  title : Option String
  body : Option String
  eventId : Option String
  eventName : Option String
  dateKey : Option String
  sentAt : Option Nat
  failedAt : Option Nat
  note : Option String
  error : Option String
  sentToDevice : Option String
  fcmResponse : Option FcmCounts
deriving DecidableEq, Repr

/-- One document of the root `users` collection together with its two
subcollections used by the engine. -/
structure UserDoc where
  uid : String
  fcmTokens : List TokenDoc
  pushNotifications : List (String × NotifData)
deriving DecidableEq, Repr

/-- The document store. -/
structure DB where
  users : List UserDoc
deriving DecidableEq, Repr

/-- A document returned by the resolver's `collectionGroup` query:
document id, path segments of its ref, and its data (the JS builds
`{id: doc.id, ref: doc.ref, data: doc.data()}`). -/
structure SnapDoc where
  id : String
  refParts : List String
  data : NotifData
deriving DecidableEq, Repr

/-- Outcome of one `sendEachForMulticast` call: wholesale failure (the
call throws) or a per-address success/failure list. -/
inductive GatewayResult where
  | failure (msg : String)
  | success (results : List Bool)
deriving DecidableEq, Repr

/-- The external world of one cycle: gateway behaviour per call index,
which token deletions fail (per user id and token), which users' token
fetches throw, whether the resolver query throws, and the server
timestamp written by `update`s. -/
structure Env where
  gateway : Nat → GatewayResult
  deleteFails : String → String → Bool
  tokenFetchFails : String → Bool
  resolverFails : Bool
  serverTs : Nat

/-- Mutable state threaded through one cycle: the store, the running
`totalSent`, and the log of gateway calls (each entry the token list
targeted, in call order). -/
structure CycleState where
  db : DB
  totalSent : Nat
  callLog : List (List String)
deriving DecidableEq, Repr

/-- What one invocation of `checkAndSendNotifications` produces: the
value returned (or the error thrown, re-raised by the outer catch), the
final store, and the gateway call log. -/
structure CycleOutcome where
  result : Except String Nat
  db : DB
  callLog : List (List String)

/-- `pathParts[1]` of the JS: the user id extracted from a document
path's segments. -/
def userIdOfParts (pathParts : List String) : String :=
  pathParts.getD 1 ""

/-- The ref segments of notification `nid` of user `uid`. -/
def notifRefParts (uid nid : String) : List String :=
  ["users", uid, "pushNotifications", nid]

/-- The resolver query's per-document condition:
`fireAt <= now`, `fireAt >= oneMinuteAgo`, `status == "scheduled"`. -/
def isDue (now oneMinuteAgo : Int) (d : NotifData) : Bool :=
  decide (d.fireAt ≤ now) && decide (oneMinuteAgo ≤ d.fireAt) &&
    (d.status == "scheduled")

/-- The `collectionGroup("pushNotifications")` query filtered by `isDue`:
every due notification across all users, in store order, each with its
ref's path segments. -/
def dueSnapshot (db : DB) (now oneMinuteAgo : Int) : List SnapDoc :=
  db.users.flatMap fun u =>
    (u.pushNotifications.filter fun p => isDue now oneMinuteAgo p.2).map
      fun p => ⟨p.1, notifRefParts u.uid p.1, p.2⟩

/-- Insert a doc into the JS-`Map`-style association list under key
`uid`: append to the existing entry, or add a new entry at the end
(insertion order, as a JS `Map` iterates). -/
def insertGrouped (m : List (String × List SnapDoc)) (uid : String)
    (doc : SnapDoc) : List (String × List SnapDoc) :=
  match m with
  | [] => [(uid, [doc])]
  | (k, v) :: rest =>
    if k == uid then (k, v ++ [doc]) :: rest
    else (k, v) :: insertGrouped rest uid doc

/-- `notificationsByUser`: group the snapshot's docs by the user id
derived from each doc's path segments. -/
def groupByUser (docs : List SnapDoc) : List (String × List SnapDoc) :=
  docs.foldl (fun m doc => insertGrouped m (userIdOfParts doc.refParts) doc) []

/-- The `fcmTokens` subcollection of user `uid` in the current store (an
absent user has an empty subcollection). -/
def DB.userTokenDocs (db : DB) (uid : String) : List TokenDoc :=
  match db.users.find? (fun u => u.uid == uid) with
  | some u => u.fcmTokens
  | none => []

/-- Read notification `nid` of user `uid` from the store. -/
def DB.getNotif (db : DB) (uid nid : String) : Option NotifData :=
  match db.users.find? (fun u => u.uid == uid) with
  | some u => (u.pushNotifications.find? (fun p => p.1 == nid)).map (·.2)
  | none => none

/-- `notification.ref.update(f)`: apply `f` to the document addressed by
the ref's path segments (a no-op on a ref that is not a
`users/{uid}/pushNotifications/{nid}` path). -/
def updateNotifData (db : DB) (refParts : List String)
    (f : NotifData → NotifData) : DB :=
  match refParts with
  | ["users", uid, "pushNotifications", nid] =>
    ⟨db.users.map fun u =>
      if u.uid == uid then
        { u with pushNotifications :=
            u.pushNotifications.map fun p =>
              if p.1 == nid then (p.1, f p.2) else p }
      else u⟩
  | _ => db

/-- `db.collection("users").doc(uid).collection("fcmTokens")
.doc(tok).delete()`: remove the token document. -/
def deleteTokenDoc (db : DB) (uid tok : String) : DB :=
  ⟨db.users.map fun u =>
    if u.uid == uid then
      { u with fcmTokens := u.fcmTokens.filter fun t => !(t.id == tok) }
    else u⟩

/-- `response.successCount` of a per-address outcome list. -/
def successCountOf (results : List Bool) : Nat :=
  (results.filter fun b => b).length

/-- `response.failureCount` of a per-address outcome list. -/
def failureCountOf (results : List Bool) : Nat :=
  (results.filter fun b => !b).length

/-- The invalid-token cleanup loop: for each failed response paired with
its token (`responses.forEach((resp, idx) => ... tokens[idx] ...)`),
delete the token document; a deletion error is swallowed by `.catch`. -/
def removeInvalidTokens (env : Env) (db : DB) (uid : String)
    (tokens : List String) (results : List Bool) : DB :=
  (results.zip tokens).foldl
    (fun db p =>
      if p.1 then db
      else if env.deleteFails uid p.2 then db
      else deleteTokenDoc db uid p.2)
    db

/-- One gateway call: consult the oracle at the current call index and
append the targeted token list to the call log. -/
def gatewaySend (env : Env) (s : CycleState) (tokens : List String) :
    GatewayResult × CycleState :=
  (env.gateway s.callLog.length, { s with callLog := s.callLog ++ [tokens] })

/-- The zero-token update (lines 107-111):
`{status: "sent", sentAt: serverTimestamp, note: "No FCM tokens available"}`. -/
def markSentNoTokens (ts : Nat) (d : NotifData) : NotifData :=
  { d with status := "sent", sentAt := some ts,
           note := some "No FCM tokens available" }

/-- The broadcast-path sent update (lines 192-199). -/
def markSentBroadcast (ts sc fc : Nat) (d : NotifData) : NotifData :=
  { d with status := "sent", sentAt := some ts,
           fcmResponse := some ⟨sc, fc⟩ }

/-- The plain failed update (lines 223-227 and 372-376):
`{status: "failed", error, failedAt}`. -/
def markFailedPlain (ts : Nat) (msg : String) (d : NotifData) : NotifData :=
  { d with status := "failed", error := some msg, failedAt := some ts }

/-- The creating-device sent update (lines 261-269), recording
`sentToDevice`. -/
def markSentToDevice (ts : Nat) (dev : String) (sc fc : Nat)
    (d : NotifData) : NotifData :=
  { d with status := "sent", sentAt := some ts, sentToDevice := some dev,
           fcmResponse := some ⟨sc, fc⟩ }

/-- The creating-device failed update (lines 294-299), with the
fallback note. -/
def markFailedDevice (ts : Nat) (msg : String) (d : NotifData) : NotifData :=
  { d with status := "failed", error := some msg, failedAt := some ts,
           note := some "Failed to send to creating device" }

/-- The no-matching-device fallback sent update (lines 341-349). -/
def markSentFallback (ts sc fc : Nat) (d : NotifData) : NotifData :=
  { d with status := "sent", sentAt := some ts,
           note := some "Sent to all available devices (no matching device token)",
           fcmResponse := some ⟨sc, fc⟩ }

/-- The no-tokens-at-all failed update (lines 380-384). -/
def markFailedNoTokens (ts : Nat) (d : NotifData) : NotifData :=
  { d with status := "failed",
           note := some "No tokens available for this user",
           failedAt := some ts }

/-- `deviceTokens`: ids of token docs whose `deviceId` equals the
notification's creating device (the JS builds this and `otherTokens` in
one pass over `tokenDocs`; two order-preserving filters are the same
partition). -/
def deviceTokensOf (tokenDocs : List TokenDoc) (dev : String) : List String :=
  (tokenDocs.filter fun t => t.deviceId == some dev).map (·.id)

/-- `otherTokens`: ids of the remaining token docs. -/
def otherTokensOf (tokenDocs : List TokenDoc) (dev : String) : List String :=
  (tokenDocs.filter fun t => !(t.deviceId == some dev)).map (·.id)

/-- Routing and reconciliation for one notification of one user (the body
of the inner `for (const notification of userNotifications)` loop, lines
117-388), given the user's fetched token list and token docs. -/
def processNotification (env : Env) (uid : String) (tokens : List String)
    (tokenDocs : List TokenDoc) (nd : SnapDoc) (s : CycleState) : CycleState :=
  match nd.data.deviceId with
  | none =>
    -- no creating device: broadcast to all tokens (lines 175-228)
    let (resp, s1) := gatewaySend env s tokens
    match resp with
    | .success results =>
      let sc := successCountOf results
      let fc := failureCountOf results
      let s2 := { s1 with totalSent := s1.totalSent + sc }
      let db1 := updateNotifData s2.db nd.refParts
        (markSentBroadcast env.serverTs sc fc)
      let db2 := if 0 < fc then removeInvalidTokens env db1 uid tokens results
                 else db1
      { s2 with db := db2 }
    | .failure msg =>
      { s1 with db := (updateNotifData s1.db nd.refParts
          (markFailedPlain env.serverTs msg)) }
  | some dev =>
    let deviceTokens := deviceTokensOf tokenDocs dev
    let otherTokens := otherTokensOf tokenDocs dev
    if 0 < deviceTokens.length then
      -- send to the creating device first (lines 248-319)
      let (resp, s1) := gatewaySend env s deviceTokens
      match resp with
      | .success results =>
        let sc := successCountOf results
        let fc := failureCountOf results
        let s2 := { s1 with totalSent := s1.totalSent + sc }
        let db1 := updateNotifData s2.db nd.refParts
          (markSentToDevice env.serverTs dev sc fc)
        let db2 := if 0 < fc then
                     removeInvalidTokens env db1 uid deviceTokens results
                   else db1
        { s2 with db := db2 }
      | .failure msg =>
        -- mark as failed but try fallback (lines 290-318)
        let s2 := { s1 with db := (updateNotifData s1.db nd.refParts
            (markFailedDevice env.serverTs msg)) }
        if 0 < otherTokens.length then
          let (resp2, s3) := gatewaySend env s2 otherTokens
          match resp2 with
          | .success results2 =>
            { s3 with totalSent := s3.totalSent + successCountOf results2 }
          | .failure _ => s3
        else s2
    else
      if 0 < otherTokens.length then
        -- no token for the creating device: send to the others (lines 326-377)
        let (resp, s1) := gatewaySend env s otherTokens
        match resp with
        | .success results =>
          let sc := successCountOf results
          let fc := failureCountOf results
          let s2 := { s1 with totalSent := s1.totalSent + sc }
          let db1 := updateNotifData s2.db nd.refParts
            (markSentFallback env.serverTs sc fc)
          let db2 := if 0 < fc then
                       removeInvalidTokens env db1 uid otherTokens results
                     else db1
          { s2 with db := db2 }
        | .failure msg =>
          { s1 with db := (updateNotifData s1.db nd.refParts
              (markFailedPlain env.serverTs msg)) }
      else
        -- no tokens available at all (lines 378-385)
        { s with db := (updateNotifData s.db nd.refParts
            (markFailedNoTokens env.serverTs)) }

/-- Processing of one user's group after a successful token fetch (lines
95-388): fetch the token docs from the current store; with zero tokens
mark every notification sent-without-delivery, otherwise route each
notification. -/
def processGroupBody (env : Env) (uid : String) (ns : List SnapDoc)
    (s : CycleState) : CycleState :=
  let tokenDocs := s.db.userTokenDocs uid
  let tokens := tokenDocs.map (·.id)
  if tokens.length == 0 then
    ns.foldl
      (fun s n => { s with db := (updateNotifData s.db n.refParts
          (markSentNoTokens env.serverTs)) }) s
  else
    ns.foldl (fun s n => processNotification env uid tokens tokenDocs n s) s

/-- The outer `for (const [userId, userNotifications] of
notificationsByUser.entries())` loop (lines 85-389).  A token fetch that
throws is not caught inside the loop: it aborts the remaining iterations
and surfaces as the cycle's error. -/
def processUsers (env : Env) (groups : List (String × List SnapDoc))
    (s : CycleState) : Option String × CycleState :=
  match groups with
  | [] => (none, s)
  | g :: rest =>
    if env.tokenFetchFails g.1 then (some "Error fetching fcmTokens", s)
    else processUsers env rest (processGroupBody env g.1 g.2 s)

/-- `checkAndSendNotifications` (lines 38-397): resolve the due set,
group by user, process each group, return `totalSent`; a resolver
failure or an uncaught in-loop failure reaches the outer catch, which
logs and rethrows. -/
def checkAndSendNotifications (env : Env) (db0 : DB) (now : Int) :
    CycleOutcome :=
  if env.resolverFails then ⟨.error "resolver query failed", db0, []⟩
  else
    let oneMinuteAgo := now - 60000
    let snap := dueSnapshot db0 now oneMinuteAgo
    if snap.isEmpty then ⟨.ok 0, db0, []⟩
    else
      let groups := groupByUser snap
      match processUsers env groups ⟨db0, 0, []⟩ with
      | (some e, s) => ⟨.error e, s.db, s.callLog⟩
      | (none, s) => ⟨.ok s.totalSent, s.db, s.callLog⟩

/-- Well-formedness of a store: user ids are distinct, and within each
user the notification ids and the token ids are distinct (Firestore
document ids are unique within a collection). -/
def DB.WF (db : DB) : Prop :=
  (db.users.map (·.uid)).Nodup ∧
  ∀ u ∈ db.users, (u.pushNotifications.map (·.1)).Nodup ∧
    (u.fcmTokens.map (·.id)).Nodup

instance : DecidablePred DB.WF := fun db => by
  unfold DB.WF; infer_instance

/-- The notification at `(uid, nid)` is in a terminal status. -/
def TerminalAt (db : DB) (uid nid : String) : Prop :=
  ∃ d, db.getNotif uid nid = some d ∧
    (d.status = "sent" ∨ d.status = "failed")

/-- The notification at `(uid, nid)` was marked sent-without-delivery. -/
def SentNoTokensAt (db : DB) (uid nid : String) : Prop :=
  ∃ d, db.getNotif uid nid = some d ∧ d.status = "sent" ∧
    d.note = some "No FCM tokens available"

/-- A single update function the cycle may apply to a notification:
it always writes a terminal status, and it never writes the
no-tokens-at-all note onto a notification that did not carry it. -/
def GoodMark (f : NotifData → NotifData) : Prop :=
  (∀ d, (f d).status = "sent" ∨ (f d).status = "failed") ∧
  (∀ d, d.note ≠ some "No tokens available for this user" →
    (f d).note ≠ some "No tokens available for this user")

/-- The reflexive-transitive closure of applying `GoodMark` updates to
an optional notification read. -/
inductive MarkChain : Option NotifData → Option NotifData → Prop
  | refl (o : Option NotifData) : MarkChain o o
  | step {o₁ o₂ : Option NotifData} {f : NotifData → NotifData}
      (h : MarkChain o₁ o₂) (hf : GoodMark f) : MarkChain o₁ (o₂.map f)

/-- A terminal read. -/
def TerminalOpt (o : Option NotifData) : Prop :=
  ∃ d, o = some d ∧ (d.status = "sent" ∨ d.status = "failed")

/-- A sent-without-delivery read. -/
def SentNoTokensOpt (o : Option NotifData) : Prop :=
  ∃ d, o = some d ∧ d.status = "sent" ∧
    d.note = some "No FCM tokens available"

/-- The orchestration loop over recipient groups, as it runs when no
token fetch fails. -/
def runGroups (env : Env) (groups : List (String × List SnapDoc))
    (s : CycleState) : CycleState :=
  groups.foldl (fun s g => processGroupBody env g.1 g.2 s) s

/-! ## Concrete stores and environments used as witnesses -/

/-- A freshly created (externally scheduled) notification document. -/
def mkNotif (fireAt : Int) (deviceId : Option String) : NotifData :=
  ⟨fireAt, "scheduled", deviceId, none, none, none, none, none,
   none, none, none, none, none, none⟩

def dbC1 : DB :=
  ⟨[⟨"u1", [], [("n1", mkNotif 0 none)]⟩,
    ⟨"u2", [], [("n2", mkNotif 0 none)]⟩]⟩

def envC1 : Env :=
  ⟨fun _ => .failure "boom", fun _ _ => false, fun u => u == "u1", false, 7⟩

def envC1b : Env :=
  ⟨fun _ => .failure "boom", fun _ _ => false, fun _ => false, false, 7⟩

def envC1r : Env :=
  ⟨fun _ => .failure "boom", fun _ _ => false, fun _ => false, true, 7⟩

def dbW : DB :=
  ⟨[⟨"u1", [⟨"t1", none⟩],
     [("n1", mkNotif 0 none), ("nOld", mkNotif (-999999) none)]⟩]⟩

def envW : Env :=
  ⟨fun _ => .success [true], fun _ _ => false, fun _ => false, false, 5⟩

def docW : SnapDoc := ⟨"n1", notifRefParts "u1" "n1", mkNotif 0 none⟩

def dbW4 : DB := ⟨[⟨"u1", [], [("n1", mkNotif 0 none)]⟩]⟩

def tdW5 : List TokenDoc := [⟨"tA", some "x"⟩, ⟨"tB", some "y"⟩]

def ndW5 : SnapDoc := ⟨"n1", notifRefParts "u1" "n1", mkNotif 0 (some "x")⟩

def dbW5 : DB := ⟨[⟨"u1", tdW5, [("n1", mkNotif 0 (some "x"))]⟩]⟩

def sW5 : CycleState := ⟨dbW5, 0, []⟩

def envW5 : Env :=
  ⟨fun i => if i == 0 then .failure "net" else .success [true],
   fun _ _ => false, fun _ => false, false, 5⟩

def tdW6 : List TokenDoc := [⟨"tA", none⟩, ⟨"tB", none⟩]

def ndW6 : SnapDoc := ⟨"n1", notifRefParts "u1" "n1", mkNotif 0 none⟩

def dbW6 : DB := ⟨[⟨"u1", tdW6, [("n1", mkNotif 0 none)]⟩]⟩

def sW6 : CycleState := ⟨dbW6, 0, []⟩

def envW6 : Env :=
  ⟨fun _ => .success [true, false], fun _ _ => false, fun _ => false, false, 5⟩

def dbW9 : DB :=
  ⟨[⟨"u1", [⟨"t1", some "y"⟩], [("n1", mkNotif 0 (some "x"))]⟩]⟩

def envW9 : Env :=
  ⟨fun _ => .success [true], fun _ _ => false, fun _ => false, false, 5⟩

def dOut9 : NotifData :=
  ⟨0, "sent", some "x", none, none, none, none, none, some 5, none,
   some "Sent to all available devices (no matching device token)",
   none, none, some ⟨1, 0⟩⟩


/-! ## Generic list helpers -/

/-- `find?` over a `map` whose function does not change the predicate's
verdict. -/
theorem find?_map_pred_eq {α : Type} (g : α → α) (p : α → Bool)
    (h : ∀ a, p (g a) = p a) (l : List α) :
    (l.map g).find? p = (l.find? p).map g := by
  have hpg : p ∘ g = p := by funext a; simp [Function.comp, h]
  rw [List.find?_map, hpg]

/-- With pairwise-distinct keys, `find?` on a member's key returns that
member. -/
theorem find?_key_of_nodup {α β : Type} [BEq β] [LawfulBEq β] (key : α → β)
    (l : List α) (a : α) (hnd : (l.map key).Nodup) (ha : a ∈ l) :
    l.find? (fun x => key x == key a) = some a := by
  induction l with
  | nil => cases ha
  | cons b rest ih =>
    have hnd' := List.nodup_cons.mp (by rwa [List.map_cons] at hnd)
    rcases List.mem_cons.mp ha with rfl | hmem
    · simp [List.find?]
    · have hne : key b ≠ key a := by
        intro hk
        exact hnd'.1 (hk ▸ List.mem_map.mpr ⟨a, hmem, rfl⟩)
      have hb : (key b == key a) = false := beq_eq_false_iff_ne.mpr hne
      simp only [List.find?, hb]
      exact ih hnd'.2 hmem

/-- The two complementary filters of a partition cover the list. -/
theorem length_filter_add_length_filter_not {α : Type} (l : List α)
    (p : α → Bool) :
    (l.filter p).length + (l.filter fun a => !p a).length = l.length := by
  induction l with
  | nil => rfl
  | cons a rest ih =>
    by_cases h : p a = true <;>
      simp [List.filter_cons, h, Nat.succ_eq_add_one] <;> omega

/-! ## Store-operation lemmas -/

theorem uid_update_fun (uid nid : String) (f : NotifData → NotifData)
    (u : UserDoc) :
    (if u.uid == uid then
       { u with pushNotifications :=
           u.pushNotifications.map fun p =>
             if p.1 == nid then (p.1, f p.2) else p }
     else u).uid = u.uid := by
  split <;> rfl

theorem fst_update_fun (nid : String) (f : NotifData → NotifData)
    (p : String × NotifData) :
    (if p.1 == nid then (p.1, f p.2) else p).1 = p.1 := by
  split <;> rfl

/-- Reading back the very notification an update addressed. -/
theorem getNotif_update_self (db : DB) (u n : String)
    (f : NotifData → NotifData) :
    (updateNotifData db (notifRefParts u n) f).getNotif u n =
      (db.getNotif u n).map f := by
  show DB.getNotif ⟨db.users.map _⟩ u n = _
  unfold DB.getNotif
  rw [find?_map_pred_eq _ _ (fun a => by rw [uid_update_fun])]
  cases hf : db.users.find? (fun x => x.uid == u) with
  | none => rfl
  | some u0 =>
    have hu0 : (u0.uid == u) = true := by
      have h := List.find?_some hf
      exact h
    simp only [Option.map_some', hu0, if_true]
    rw [find?_map_pred_eq _ _ (fun a => by rw [fst_update_fun])]
    cases hg : u0.pushNotifications.find? (fun p => p.1 == n) with
    | none => rfl
    | some q =>
      have hq : (q.1 == n) = true := by
        have h := List.find?_some hg
        exact h
      simp [hq, beq_iff_eq.mp hq]

/-- An update addressed to a different notification does not change the
read. -/
theorem getNotif_update_other (db : DB) (u' n' u n : String)
    (f : NotifData → NotifData) (hne : ¬(u' = u ∧ n' = n)) :
    (updateNotifData db (notifRefParts u' n') f).getNotif u n =
      db.getNotif u n := by
  show DB.getNotif ⟨db.users.map _⟩ u n = _
  unfold DB.getNotif
  rw [find?_map_pred_eq _ _ (fun a => by rw [uid_update_fun])]
  cases hf : db.users.find? (fun x => x.uid == u) with
  | none => rfl
  | some u0 =>
    have hu0 : u0.uid = u := by
      have h : (u0.uid == u) = true := by
        have h' := List.find?_some hf
        exact h'
      exact beq_iff_eq.mp h
    by_cases huu : u' = u
    · subst huu
      have hn : n' ≠ n := fun h => hne ⟨rfl, h⟩
      have hu0' : (u0.uid == u') = true := beq_iff_eq.mpr hu0
      simp only [Option.map_some', hu0', if_true]
      rw [find?_map_pred_eq _ _ (fun a => by rw [fst_update_fun])]
      cases hg : u0.pushNotifications.find? (fun p => p.1 == n) with
      | none => rfl
      | some q =>
        have hq : q.1 = n := by
          have h := List.find?_some hg
          exact beq_iff_eq.mp h
        have hqn : q.1 ≠ n' := by
          rw [hq]; exact fun h => hn h.symm
        simp [beq_eq_false_iff_ne.mpr hqn, hqn]
    · have hne' : (u0.uid == u') = false := by
        apply beq_eq_false_iff_ne.mpr
        rw [hu0]; exact fun h => huu h.symm
      simp only [Option.map_some', hne', Bool.false_eq_true, if_false]

/-- Deleting a token document never changes any notification read. -/
theorem getNotif_deleteTokenDoc (db : DB) (uid tok u n : String) :
    (deleteTokenDoc db uid tok).getNotif u n = db.getNotif u n := by
  show DB.getNotif ⟨db.users.map _⟩ u n = _
  unfold DB.getNotif
  rw [find?_map_pred_eq _ _ (fun a => by split <;> rfl)]
  cases hf : db.users.find? (fun x => x.uid == u) with
  | none => rfl
  | some u0 =>
    simp only [Option.map_some']
    split <;> rfl

/-- The invalid-token cleanup never changes any notification read. -/
theorem getNotif_removeInvalidTokens (env : Env) (db : DB) (uid : String)
    (tokens : List String) (results : List Bool) (u n : String) :
    (removeInvalidTokens env db uid tokens results).getNotif u n =
      db.getNotif u n := by
  unfold removeInvalidTokens
  generalize results.zip tokens = l
  induction l generalizing db with
  | nil => rfl
  | cons p rest ih =>
    rw [List.foldl_cons, ih]
    by_cases h1 : p.1 = true
    · simp [h1]
    · simp only [Bool.not_eq_true] at h1
      by_cases h2 : env.deleteFails uid p.2 = true
      · simp [h1, h2]
      · simp only [Bool.not_eq_true] at h2
        simp [h1, h2, getNotif_deleteTokenDoc]

/-! ## Resolver (due snapshot) lemmas -/

theorem mem_dueSnapshot_iff (db : DB) (now ago : Int) (doc : SnapDoc) :
    doc ∈ dueSnapshot db now ago ↔
      ∃ u ∈ db.users, ∃ p ∈ u.pushNotifications,
        isDue now ago p.2 = true ∧
        doc = ⟨p.1, notifRefParts u.uid p.1, p.2⟩ := by
  unfold dueSnapshot
  simp only [List.mem_flatMap, List.mem_map, List.mem_filter]
  constructor
  · rintro ⟨u, hu, p, ⟨hp, hdue⟩, rfl⟩
    exact ⟨u, hu, p, hp, hdue, rfl⟩
  · rintro ⟨u, hu, p, hp, hdue, rfl⟩
    exact ⟨u, hu, p, ⟨hp, hdue⟩, rfl⟩

theorem isDue_iff (now ago : Int) (d : NotifData) :
    isDue now ago d = true ↔
      d.fireAt ≤ now ∧ ago ≤ d.fireAt ∧ d.status = "scheduled" := by
  unfold isDue
  simp [Bool.and_eq_true, decide_eq_true_eq, and_assoc]

theorem refParts_shape_of_mem (db : DB) (now ago : Int) (doc : SnapDoc)
    (h : doc ∈ dueSnapshot db now ago) :
    doc.refParts = notifRefParts (userIdOfParts doc.refParts) doc.id := by
  rcases (mem_dueSnapshot_iff db now ago doc).mp h with ⟨u, _, p, _, _, rfl⟩
  rfl

theorem find?_uid_of_nodup (l : List UserDoc) (u : UserDoc)
    (hnd : (l.map (·.uid)).Nodup) (hu : u ∈ l) :
    l.find? (fun x => x.uid == u.uid) = some u :=
  find?_key_of_nodup (fun x => x.uid) l u hnd hu

theorem find?_fst_of_nodup (l : List (String × NotifData))
    (p : String × NotifData) (hnd : (l.map (·.1)).Nodup) (hp : p ∈ l) :
    l.find? (fun q => q.1 == p.1) = some p :=
  find?_key_of_nodup (fun q => q.1) l p hnd hp

/-- In a well-formed store, a snapshot document reads back as itself. -/
theorem getNotif_of_mem_snapshot (db : DB) (now ago : Int) (doc : SnapDoc)
    (hwf : db.WF) (h : doc ∈ dueSnapshot db now ago) :
    db.getNotif (userIdOfParts doc.refParts) doc.id = some doc.data := by
  rcases (mem_dueSnapshot_iff db now ago doc).mp h with ⟨u, hu, p, hp, _, rfl⟩
  show db.getNotif u.uid p.1 = some p.2
  unfold DB.getNotif
  rw [find?_uid_of_nodup db.users u hwf.1 hu]
  show (u.pushNotifications.find? (fun q => q.1 == p.1)).map (·.2) = some p.2
  rw [find?_fst_of_nodup u.pushNotifications p (hwf.2 u hu).1 hp]
  rfl

/-! ## Token-registry frame lemmas -/

theorem userTokenDocs_update (db : DB) (u' n' : String)
    (f : NotifData → NotifData) (u : String) :
    (updateNotifData db (notifRefParts u' n') f).userTokenDocs u =
      db.userTokenDocs u := by
  show DB.userTokenDocs ⟨db.users.map _⟩ u = _
  unfold DB.userTokenDocs
  rw [find?_map_pred_eq _ _ (fun a => by rw [uid_update_fun])]
  cases hf : db.users.find? (fun x => x.uid == u) with
  | none => rfl
  | some u0 =>
    simp only [Option.map_some']
    split <;> rfl

theorem userTokenDocs_deleteTokenDoc_ne (db : DB) (uid tok u : String)
    (h : uid ≠ u) :
    (deleteTokenDoc db uid tok).userTokenDocs u = db.userTokenDocs u := by
  show DB.userTokenDocs ⟨db.users.map _⟩ u = _
  unfold DB.userTokenDocs
  rw [find?_map_pred_eq _ _ (fun a => by split <;> rfl)]
  cases hf : db.users.find? (fun x => x.uid == u) with
  | none => rfl
  | some u0 =>
    have hu0 : u0.uid = u := by
      have h' := List.find?_some hf
      exact beq_iff_eq.mp h'
    have hne : (u0.uid == uid) = false :=
      beq_eq_false_iff_ne.mpr (by rw [hu0]; exact fun hh => h hh.symm)
    have hcond : ¬(u = uid) := fun hh => h hh.symm
    simp only [Option.map_some']
    simp [hne, hu0, hcond]

theorem userTokenDocs_removeInvalidTokens_ne (env : Env) (db : DB)
    (uid : String) (tokens : List String) (results : List Bool) (u : String)
    (h : uid ≠ u) :
    (removeInvalidTokens env db uid tokens results).userTokenDocs u =
      db.userTokenDocs u := by
  unfold removeInvalidTokens
  generalize results.zip tokens = l
  induction l generalizing db with
  | nil => rfl
  | cons p rest ih =>
    rw [List.foldl_cons, ih]
    by_cases h1 : p.1 = true
    · simp [h1]
    · simp only [Bool.not_eq_true] at h1
      by_cases h2 : env.deleteFails uid p.2 = true
      · simp [h1, h2]
      · simp only [Bool.not_eq_true] at h2
        simp [h1, h2, userTokenDocs_deleteTokenDoc_ne _ _ _ _ h]

/-! ## Grouping lemmas -/

theorem insertGrouped_mem_out (m : List (String × List SnapDoc))
    (uid : String) (d : SnapDoc) :
    ∀ g ∈ insertGrouped m uid d, ∀ x ∈ g.2,
      (∃ g' ∈ m, g'.1 = g.1 ∧ x ∈ g'.2) ∨ (x = d ∧ g.1 = uid) := by
  induction m with
  | nil =>
    intro g hg x hx
    simp only [insertGrouped, List.mem_singleton] at hg
    subst hg
    simp only [List.mem_singleton] at hx
    exact Or.inr ⟨hx, rfl⟩
  | cons e rest ih =>
    intro g hg x hx
    obtain ⟨ek, ev⟩ := e
    by_cases hk : (ek == uid) = true
    · simp only [insertGrouped, hk, if_true] at hg
      rcases List.mem_cons.mp hg with rfl | hgrest
      · rcases List.mem_append.mp hx with hxv | hxd
        · exact Or.inl ⟨(ek, ev), List.mem_cons_self _ _, rfl, hxv⟩
        · simp only [List.mem_singleton] at hxd
          exact Or.inr ⟨hxd, beq_iff_eq.mp hk⟩
      · exact Or.inl ⟨g, List.mem_cons_of_mem _ hgrest, rfl, hx⟩
    · simp only [insertGrouped, hk, Bool.false_eq_true, if_false] at hg
      rcases List.mem_cons.mp hg with rfl | hgrest
      · exact Or.inl ⟨(ek, ev), List.mem_cons_self _ _, rfl, hx⟩
      · rcases ih g hgrest x hx with ⟨g', hg', he, hx'⟩ | hr
        · exact Or.inl ⟨g', List.mem_cons_of_mem _ hg', he, hx'⟩
        · exact Or.inr hr

theorem insertGrouped_mem_grow (m : List (String × List SnapDoc))
    (uid : String) (d : SnapDoc) (g : String × List SnapDoc) (hg : g ∈ m) :
    ∃ g' ∈ insertGrouped m uid d, g'.1 = g.1 ∧ ∀ x ∈ g.2, x ∈ g'.2 := by
  induction m with
  | nil => cases hg
  | cons e rest ih =>
    obtain ⟨ek, ev⟩ := e
    by_cases hk : (ek == uid) = true
    · simp only [insertGrouped, hk, if_true]
      rcases List.mem_cons.mp hg with rfl | hgrest
      · exact ⟨(ek, ev ++ [d]), List.mem_cons_self _ _, rfl,
          fun x hx => List.mem_append.mpr (Or.inl hx)⟩
      · exact ⟨g, List.mem_cons_of_mem _ hgrest, rfl, fun x hx => hx⟩
    · simp only [insertGrouped, hk, Bool.false_eq_true, if_false]
      rcases List.mem_cons.mp hg with rfl | hgrest
      · exact ⟨(ek, ev), List.mem_cons_self _ _, rfl, fun x hx => hx⟩
      · obtain ⟨g', hg', he, hsub⟩ := ih hgrest
        exact ⟨g', List.mem_cons_of_mem _ hg', he, hsub⟩

theorem insertGrouped_mem_new (m : List (String × List SnapDoc))
    (uid : String) (d : SnapDoc) :
    ∃ g ∈ insertGrouped m uid d, g.1 = uid ∧ d ∈ g.2 := by
  induction m with
  | nil =>
    exact ⟨(uid, [d]), List.mem_singleton.mpr rfl, rfl, List.mem_singleton.mpr rfl⟩
  | cons e rest ih =>
    obtain ⟨ek, ev⟩ := e
    by_cases hk : (ek == uid) = true
    · refine ⟨(ek, ev ++ [d]), ?_, beq_iff_eq.mp hk, ?_⟩
      · simp only [insertGrouped, hk, if_true]
        exact List.mem_cons_self _ _
      · exact List.mem_append.mpr (Or.inr (List.mem_singleton.mpr rfl))
    · obtain ⟨g, hg, h1, h2⟩ := ih
      refine ⟨g, ?_, h1, h2⟩
      simp only [insertGrouped, hk, Bool.false_eq_true, if_false]
      exact List.mem_cons_of_mem _ hg

theorem insertGrouped_keys_eq (m : List (String × List SnapDoc))
    (uid : String) (d : SnapDoc) :
    (insertGrouped m uid d).map (·.1) =
      if uid ∈ m.map (·.1) then m.map (·.1) else m.map (·.1) ++ [uid] := by
  induction m with
  | nil => simp [insertGrouped]
  | cons e rest ih =>
    obtain ⟨ek, ev⟩ := e
    by_cases hk : (ek == uid) = true
    · have hek : ek = uid := beq_iff_eq.mp hk
      simp [insertGrouped, hk, hek]
  
    · have hne : ek ≠ uid := by
        intro hh
        exact absurd (beq_iff_eq.mpr hh) (by simp [hk])
      have hne' : uid ≠ ek := fun hh => hne hh.symm
      simp only [insertGrouped, hk, Bool.false_eq_true, if_false,
        List.map_cons, ih]
      by_cases hmem : uid ∈ rest.map (·.1)
      · simp [hmem, hne']
      · simp [hmem, hne']

theorem insertGrouped_keys_nodup (m : List (String × List SnapDoc))
    (uid : String) (d : SnapDoc) (h : (m.map (·.1)).Nodup) :
    ((insertGrouped m uid d).map (·.1)).Nodup := by
  rw [insertGrouped_keys_eq]
  by_cases hmem : uid ∈ m.map (·.1)
  · simpa [hmem] using h
  · simp only [hmem, if_false]
    simp [List.nodup_append, h, hmem]

theorem foldl_insertGrouped_inv (P : SnapDoc → Prop) (docs : List SnapDoc)
    (m : List (String × List SnapDoc)) (hd : ∀ x ∈ docs, P x)
    (hm : ∀ g ∈ m, ∀ x ∈ g.2, P x ∧ userIdOfParts x.refParts = g.1) :
    ∀ g ∈ docs.foldl
        (fun m doc => insertGrouped m (userIdOfParts doc.refParts) doc) m,
      ∀ x ∈ g.2, P x ∧ userIdOfParts x.refParts = g.1 := by
  induction docs generalizing m with
  | nil => exact hm
  | cons d rest ih =>
    rw [List.foldl_cons]
    apply ih _ (fun x hx => hd x (List.mem_cons_of_mem _ hx))
    intro g hg x hx
    rcases insertGrouped_mem_out m (userIdOfParts d.refParts) d g hg x hx with
      ⟨g0, hg0, he, hx0⟩ | ⟨hxd, hk⟩
    · have := hm g0 hg0 x hx0
      exact ⟨this.1, he ▸ this.2⟩
    · constructor
      · rw [hxd]; exact hd d (List.mem_cons_self _ _)
      · rw [hk, hxd]

/-- Every member of every group is a snapshot doc whose derived user id
is the group's key. -/
theorem groupByUser_sound (docs : List SnapDoc) :
    ∀ g ∈ groupByUser docs, ∀ x ∈ g.2,
      x ∈ docs ∧ userIdOfParts x.refParts = g.1 :=
  foldl_insertGrouped_inv (· ∈ docs) docs [] (fun _ hx => hx)
    (fun g hg => absurd hg (List.not_mem_nil g))

theorem foldl_insertGrouped_complete (docs : List SnapDoc)
    (m : List (String × List SnapDoc)) (doc : SnapDoc)
    (h : (∃ g ∈ m, g.1 = userIdOfParts doc.refParts ∧ doc ∈ g.2) ∨ doc ∈ docs) :
    ∃ g ∈ docs.foldl
        (fun m doc => insertGrouped m (userIdOfParts doc.refParts) doc) m,
      g.1 = userIdOfParts doc.refParts ∧ doc ∈ g.2 := by
  induction docs generalizing m with
  | nil =>
    rcases h with ⟨g, hg, h1, h2⟩ | h
    · exact ⟨g, hg, h1, h2⟩
    · cases h
  | cons d rest ih =>
    rw [List.foldl_cons]
    apply ih
    rcases h with ⟨g, hg, h1, h2⟩ | hmem
    · obtain ⟨g', hg', he, hsub⟩ :=
        insertGrouped_mem_grow m (userIdOfParts d.refParts) d g hg
      exact Or.inl ⟨g', hg', he.trans h1, hsub doc h2⟩
    · rcases List.mem_cons.mp hmem with rfl | hrest
      · obtain ⟨g, hg, h1, h2⟩ :=
          insertGrouped_mem_new m (userIdOfParts doc.refParts) doc
        exact Or.inl ⟨g, hg, h1, h2⟩
      · exact Or.inr hrest

/-- Every snapshot doc lands in the group keyed by its derived user id. -/
theorem groupByUser_complete (docs : List SnapDoc) (doc : SnapDoc)
    (h : doc ∈ docs) :
    ∃ g ∈ groupByUser docs, g.1 = userIdOfParts doc.refParts ∧ doc ∈ g.2 :=
  foldl_insertGrouped_complete docs [] doc (Or.inr h)

theorem foldl_insertGrouped_keys_nodup (docs : List SnapDoc)
    (m : List (String × List SnapDoc)) (hm : (m.map (·.1)).Nodup) :
    ((docs.foldl
        (fun m doc => insertGrouped m (userIdOfParts doc.refParts) doc)
        m).map (·.1)).Nodup := by
  induction docs generalizing m with
  | nil => exact hm
  | cons d rest ih =>
    rw [List.foldl_cons]
    exact ih _ (insertGrouped_keys_nodup _ _ _ hm)

/-- Group keys are pairwise distinct. -/
theorem groupByUser_keys_nodup (docs : List SnapDoc) :
    ((groupByUser docs).map (·.1)).Nodup :=
  foldl_insertGrouped_keys_nodup docs [] List.nodup_nil

/-! ## Branch reductions of `processNotification` -/

theorem deviceTokens_otherTokens_length (tokenDocs : List TokenDoc)
    (dev : String) :
    (deviceTokensOf tokenDocs dev).length +
      (otherTokensOf tokenDocs dev).length = tokenDocs.length := by
  unfold deviceTokensOf otherTokensOf
  rw [List.length_map, List.length_map]
  exact length_filter_add_length_filter_not tokenDocs _

theorem pn_broadcast_ok (env : Env) (uid : String) (tokens : List String)
    (tokenDocs : List TokenDoc) (nd : SnapDoc) (s : CycleState)
    (results : List Bool) (hdev : nd.data.deviceId = none)
    (hgw : env.gateway s.callLog.length = .success results) :
    processNotification env uid tokens tokenDocs nd s =
      ⟨(if 0 < failureCountOf results then
          removeInvalidTokens env
            (updateNotifData s.db nd.refParts
              (markSentBroadcast env.serverTs (successCountOf results)
                (failureCountOf results)))
            uid tokens results
        else
          updateNotifData s.db nd.refParts
            (markSentBroadcast env.serverTs (successCountOf results)
              (failureCountOf results))),
       s.totalSent + successCountOf results,
       s.callLog ++ [tokens]⟩ := by
  unfold processNotification gatewaySend
  rw [hdev, hgw]

theorem pn_broadcast_fail (env : Env) (uid : String) (tokens : List String)
    (tokenDocs : List TokenDoc) (nd : SnapDoc) (s : CycleState)
    (msg : String) (hdev : nd.data.deviceId = none)
    (hgw : env.gateway s.callLog.length = .failure msg) :
    processNotification env uid tokens tokenDocs nd s =
      ⟨updateNotifData s.db nd.refParts (markFailedPlain env.serverTs msg),
       s.totalSent, s.callLog ++ [tokens]⟩ := by
  unfold processNotification gatewaySend
  rw [hdev, hgw]

theorem pn_device_ok (env : Env) (uid : String) (tokens : List String)
    (tokenDocs : List TokenDoc) (nd : SnapDoc) (s : CycleState)
    (dev : String) (results : List Bool)
    (hdev : nd.data.deviceId = some dev)
    (hl : 0 < (deviceTokensOf tokenDocs dev).length)
    (hgw : env.gateway s.callLog.length = .success results) :
    processNotification env uid tokens tokenDocs nd s =
      ⟨(if 0 < failureCountOf results then
          removeInvalidTokens env
            (updateNotifData s.db nd.refParts
              (markSentToDevice env.serverTs dev (successCountOf results)
                (failureCountOf results)))
            uid (deviceTokensOf tokenDocs dev) results
        else
          updateNotifData s.db nd.refParts
            (markSentToDevice env.serverTs dev (successCountOf results)
              (failureCountOf results))),
       s.totalSent + successCountOf results,
       s.callLog ++ [deviceTokensOf tokenDocs dev]⟩ := by
  unfold processNotification gatewaySend
  rw [hdev]
  simp only [hl, if_true, hgw]

theorem pn_device_fail (env : Env) (uid : String) (tokens : List String)
    (tokenDocs : List TokenDoc) (nd : SnapDoc) (s : CycleState)
    (dev msg : String) (hdev : nd.data.deviceId = some dev)
    (hl : 0 < (deviceTokensOf tokenDocs dev).length)
    (hgw : env.gateway s.callLog.length = .failure msg) :
    processNotification env uid tokens tokenDocs nd s =
      (if 0 < (otherTokensOf tokenDocs dev).length then
        match env.gateway (s.callLog ++ [deviceTokensOf tokenDocs dev]).length with
        | .success r2 =>
          ⟨updateNotifData s.db nd.refParts (markFailedDevice env.serverTs msg),
           s.totalSent + successCountOf r2,
           s.callLog ++ [deviceTokensOf tokenDocs dev, otherTokensOf tokenDocs dev]⟩
        | .failure _ =>
          ⟨updateNotifData s.db nd.refParts (markFailedDevice env.serverTs msg),
           s.totalSent,
           s.callLog ++ [deviceTokensOf tokenDocs dev, otherTokensOf tokenDocs dev]⟩
      else
        ⟨updateNotifData s.db nd.refParts (markFailedDevice env.serverTs msg),
         s.totalSent, s.callLog ++ [deviceTokensOf tokenDocs dev]⟩) := by
  unfold processNotification gatewaySend
  rw [hdev]
  simp only [hl, if_true, hgw]
  by_cases ho : 0 < (otherTokensOf tokenDocs dev).length
  · simp only [ho, if_true]
    cases h2 : env.gateway (s.callLog ++ [deviceTokensOf tokenDocs dev]).length with
    | success r2 => simp [List.append_assoc]
    | failure m2 => simp [List.append_assoc]
  · simp only [ho, if_false]

theorem pn_fallback_ok (env : Env) (uid : String) (tokens : List String)
    (tokenDocs : List TokenDoc) (nd : SnapDoc) (s : CycleState)
    (dev : String) (results : List Bool)
    (hdev : nd.data.deviceId = some dev)
    (hl : ¬ 0 < (deviceTokensOf tokenDocs dev).length)
    (ho : 0 < (otherTokensOf tokenDocs dev).length)
    (hgw : env.gateway s.callLog.length = .success results) :
    processNotification env uid tokens tokenDocs nd s =
      ⟨(if 0 < failureCountOf results then
          removeInvalidTokens env
            (updateNotifData s.db nd.refParts
              (markSentFallback env.serverTs (successCountOf results)
                (failureCountOf results)))
            uid (otherTokensOf tokenDocs dev) results
        else
          updateNotifData s.db nd.refParts
            (markSentFallback env.serverTs (successCountOf results)
              (failureCountOf results))),
       s.totalSent + successCountOf results,
       s.callLog ++ [otherTokensOf tokenDocs dev]⟩ := by
  unfold processNotification gatewaySend
  rw [hdev]
  simp only [hl, if_false, ho, if_true, hgw]

theorem pn_fallback_fail (env : Env) (uid : String) (tokens : List String)
    (tokenDocs : List TokenDoc) (nd : SnapDoc) (s : CycleState)
    (dev msg : String) (hdev : nd.data.deviceId = some dev)
    (hl : ¬ 0 < (deviceTokensOf tokenDocs dev).length)
    (ho : 0 < (otherTokensOf tokenDocs dev).length)
    (hgw : env.gateway s.callLog.length = .failure msg) :
    processNotification env uid tokens tokenDocs nd s =
      ⟨updateNotifData s.db nd.refParts (markFailedPlain env.serverTs msg),
       s.totalSent, s.callLog ++ [otherTokensOf tokenDocs dev]⟩ := by
  unfold processNotification gatewaySend
  rw [hdev]
  simp only [hl, if_false, ho, if_true, hgw]

theorem pn_noTokens (env : Env) (uid : String) (tokens : List String)
    (tokenDocs : List TokenDoc) (nd : SnapDoc) (s : CycleState)
    (dev : String) (hdev : nd.data.deviceId = some dev)
    (hl : ¬ 0 < (deviceTokensOf tokenDocs dev).length)
    (ho : ¬ 0 < (otherTokensOf tokenDocs dev).length) :
    processNotification env uid tokens tokenDocs nd s =
      ⟨updateNotifData s.db nd.refParts (markFailedNoTokens env.serverTs),
       s.totalSent, s.callLog⟩ := by
  unfold processNotification
  rw [hdev]
  simp only [hl, if_false, ho]

/-! ## The master shape of one notification's processing -/

/-- Every branch of the routing policy finalizes the notification it
processes with a single terminal-status update; with a non-empty token
registry the update is never the no-tokens-at-all `failed` note; and no
other notification document is written. -/
theorem processNotification_shape (env : Env) (uid : String)
    (tokens : List String) (tokenDocs : List TokenDoc) (nd : SnapDoc)
    (s : CycleState) :
    ∃ f : NotifData → NotifData,
      (∀ d, (f d).status = "sent" ∨ (f d).status = "failed") ∧
      (0 < tokenDocs.length → ∀ d,
        d.note ≠ some "No tokens available for this user" →
        (f d).note ≠ some "No tokens available for this user") ∧
      ∀ u n,
        (processNotification env uid tokens tokenDocs nd s).db.getNotif u n =
          (updateNotifData s.db nd.refParts f).getNotif u n := by
  cases hdev : nd.data.deviceId with
  | none =>
    cases hgw : env.gateway s.callLog.length with
    | success results =>
      refine ⟨markSentBroadcast env.serverTs (successCountOf results)
        (failureCountOf results), fun d => Or.inl rfl, fun _ d hd => hd, ?_⟩
      intro u n
      rw [pn_broadcast_ok env uid tokens tokenDocs nd s results hdev hgw]
      by_cases hfc : 0 < failureCountOf results
      · simp only [hfc, if_true]
        exact getNotif_removeInvalidTokens _ _ _ _ _ _ _
      · simp only [hfc, if_false]
    | failure msg =>
      refine ⟨markFailedPlain env.serverTs msg, fun d => Or.inr rfl,
        fun _ d hd => hd, ?_⟩
      intro u n
      rw [pn_broadcast_fail env uid tokens tokenDocs nd s msg hdev hgw]
  | some dev =>
    by_cases hl : 0 < (deviceTokensOf tokenDocs dev).length
    · cases hgw : env.gateway s.callLog.length with
      | success results =>
        refine ⟨markSentToDevice env.serverTs dev (successCountOf results)
          (failureCountOf results), fun d => Or.inl rfl, fun _ d hd => hd, ?_⟩
        intro u n
        rw [pn_device_ok env uid tokens tokenDocs nd s dev results hdev hl hgw]
        by_cases hfc : 0 < failureCountOf results
        · simp only [hfc, if_true]
          exact getNotif_removeInvalidTokens _ _ _ _ _ _ _
        · simp only [hfc, if_false]
      | failure msg =>
        refine ⟨markFailedDevice env.serverTs msg, fun d => Or.inr rfl,
          ?_, ?_⟩
        · intro _ d _
          intro hcontra
          exact absurd (Option.some.inj hcontra) (by decide)
        · intro u n
          rw [pn_device_fail env uid tokens tokenDocs nd s dev msg hdev hl hgw]
          by_cases ho : 0 < (otherTokensOf tokenDocs dev).length
          · simp only [ho, if_true]
            cases env.gateway (s.callLog ++ [deviceTokensOf tokenDocs dev]).length
              <;> rfl
          · simp only [ho, if_false]
    · by_cases ho : 0 < (otherTokensOf tokenDocs dev).length
      · cases hgw : env.gateway s.callLog.length with
        | success results =>
          refine ⟨markSentFallback env.serverTs (successCountOf results)
            (failureCountOf results), fun d => Or.inl rfl, ?_, ?_⟩
          · intro _ d _
            intro hcontra
            exact absurd (Option.some.inj hcontra) (by decide)
          · intro u n
            rw [pn_fallback_ok env uid tokens tokenDocs nd s dev results
              hdev hl ho hgw]
            by_cases hfc : 0 < failureCountOf results
            · simp only [hfc, if_true]
              exact getNotif_removeInvalidTokens _ _ _ _ _ _ _
            · simp only [hfc, if_false]
        | failure msg =>
          refine ⟨markFailedPlain env.serverTs msg, fun d => Or.inr rfl,
            fun _ d hd => hd, ?_⟩
          intro u n
          rw [pn_fallback_fail env uid tokens tokenDocs nd s dev msg
            hdev hl ho hgw]
      · refine ⟨markFailedNoTokens env.serverTs, fun d => Or.inr rfl, ?_, ?_⟩
        · intro hlen
          exfalso
          have hsum := deviceTokens_otherTokens_length tokenDocs dev
          omega
        · intro u n
          rw [pn_noTokens env uid tokens tokenDocs nd s dev hdev hl ho]

/-! ## Mark chains: what the cycle can do to one notification read -/

theorem MarkChain.trans {o₁ o₂ o₃ : Option NotifData}
    (h₁ : MarkChain o₁ o₂) (h₂ : MarkChain o₂ o₃) : MarkChain o₁ o₃ := by
  induction h₂ with
  | refl => exact h₁
  | step h hf ih => exact MarkChain.step ih hf

theorem MarkChain.isSome_eq {o₁ o₂ : Option NotifData}
    (h : MarkChain o₁ o₂) : o₂.isSome = o₁.isSome := by
  induction h with
  | refl => rfl
  | step h hf ih => rw [Option.isSome_map']; exact ih

theorem MarkChain.terminal {o₁ o₂ : Option NotifData}
    (h : MarkChain o₁ o₂) (ht : TerminalOpt o₁) : TerminalOpt o₂ := by
  induction h with
  | refl => exact ht
  | step h hf ih =>
    rename_i o2 fm
    obtain ⟨d, hd, _⟩ := ih
    exact ⟨fm d, by rw [hd]; rfl, hf.1 d⟩

theorem MarkChain.notePres {o₁ o₂ : Option NotifData}
    (h : MarkChain o₁ o₂)
    (hn : ∀ d, o₁ = some d → d.note ≠ some "No tokens available for this user") :
    ∀ d, o₂ = some d → d.note ≠ some "No tokens available for this user" := by
  induction h with
  | refl => exact hn
  | step h hf ih =>
    rename_i o2 fm
    intro d hd
    cases ho : o2 with
    | none => rw [ho] at hd; cases hd
    | some d2 =>
      rw [ho] at hd
      simp only [Option.map_some'] at hd
      have hd' := Option.some.inj hd
      rw [← hd']
      exact hf.2 d2 (ih d2 ho)

theorem MarkChain.rel {o₁ o₂ : Option NotifData} (h : MarkChain o₁ o₂) :
    o₂ = o₁ ∨ TerminalOpt o₂ := by
  induction h with
  | refl => exact Or.inl rfl
  | step h hf ih =>
    rename_i o2 fm
    rcases ih with heq | hterm
    · rw [heq]
      cases ho : o₁ with
      | none => left; rfl
      | some d => right; exact ⟨fm d, rfl, hf.1 d⟩
    · obtain ⟨d, hd, _⟩ := hterm
      right; exact ⟨fm d, by rw [hd]; rfl, hf.1 d⟩

/-! ## Per-step consequences for one notification read -/

theorem notifRefParts_inj {u' n' u n : String}
    (h : notifRefParts u' n' = notifRefParts u n) : u' = u ∧ n' = n := by
  simp only [notifRefParts, List.cons.injEq, and_true, true_and] at h
  exact ⟨h.1, h.2⟩

theorem processNotification_chain (env : Env) (uid : String)
    (tokens : List String) (tokenDocs : List TokenDoc) (nd : SnapDoc)
    (s : CycleState) (hsh : ∃ u' n', nd.refParts = notifRefParts u' n')
    (hnz : 0 < tokenDocs.length) (u n : String) :
    MarkChain (s.db.getNotif u n)
      ((processNotification env uid tokens tokenDocs nd s).db.getNotif u n) := by
  obtain ⟨f, hterm, hnote, heq⟩ :=
    processNotification_shape env uid tokens tokenDocs nd s
  rw [heq u n]
  obtain ⟨u', n', hp⟩ := hsh
  rw [hp]
  by_cases hmat : u' = u ∧ n' = n
  · obtain ⟨rfl, rfl⟩ := hmat
    rw [getNotif_update_self]
    exact MarkChain.step (MarkChain.refl _) ⟨hterm, hnote hnz⟩
  · rw [getNotif_update_other _ _ _ _ _ _ hmat]
    exact MarkChain.refl _

theorem processNotification_frame (env : Env) (uid : String)
    (tokens : List String) (tokenDocs : List TokenDoc) (nd : SnapDoc)
    (s : CycleState) (u n : String)
    (hsh : ∃ u' n', nd.refParts = notifRefParts u' n')
    (hne : nd.refParts ≠ notifRefParts u n) :
    (processNotification env uid tokens tokenDocs nd s).db.getNotif u n =
      s.db.getNotif u n := by
  obtain ⟨f, _, _, heq⟩ :=
    processNotification_shape env uid tokens tokenDocs nd s
  rw [heq u n]
  obtain ⟨u', n', hp⟩ := hsh
  rw [hp]
  apply getNotif_update_other
  rintro ⟨rfl, rfl⟩
  exact hne hp

/-- Establishment: processing a notification whose ref addresses an
existing document leaves that document terminal. -/
theorem processNotification_establish (env : Env) (uid : String)
    (tokens : List String) (tokenDocs : List TokenDoc) (nd : SnapDoc)
    (s : CycleState) (u n : String)
    (hp : nd.refParts = notifRefParts u n)
    (hpres : (s.db.getNotif u n).isSome = true) :
    TerminalOpt
      ((processNotification env uid tokens tokenDocs nd s).db.getNotif u n) := by
  obtain ⟨f, hterm, _, heq⟩ :=
    processNotification_shape env uid tokens tokenDocs nd s
  rw [heq u n, hp, getNotif_update_self]
  obtain ⟨d, hd⟩ := Option.isSome_iff_exists.mp hpres
  rw [hd]
  exact ⟨f d, rfl, hterm d⟩

theorem processNotification_tokens_ne (env : Env) (uid : String)
    (tokens : List String) (tokenDocs : List TokenDoc) (nd : SnapDoc)
    (s : CycleState) (u : String) (hne : uid ≠ u)
    (hsh : ∃ u' n', nd.refParts = notifRefParts u' n') :
    (processNotification env uid tokens tokenDocs nd s).db.userTokenDocs u =
      s.db.userTokenDocs u := by
  obtain ⟨u', n', hp⟩ := hsh
  cases hdev : nd.data.deviceId with
  | none =>
    cases hgw : env.gateway s.callLog.length with
    | success results =>
      rw [pn_broadcast_ok env uid tokens tokenDocs nd s results hdev hgw]
      by_cases hfc : 0 < failureCountOf results
      · simp only [hfc, if_true]
        rw [userTokenDocs_removeInvalidTokens_ne _ _ _ _ _ _ hne, hp,
          userTokenDocs_update]
      · simp only [hfc, if_false]
        rw [hp, userTokenDocs_update]
    | failure msg =>
      rw [pn_broadcast_fail env uid tokens tokenDocs nd s msg hdev hgw]
      rw [hp, userTokenDocs_update]
  | some dev =>
    by_cases hl : 0 < (deviceTokensOf tokenDocs dev).length
    · cases hgw : env.gateway s.callLog.length with
      | success results =>
        rw [pn_device_ok env uid tokens tokenDocs nd s dev results hdev hl hgw]
        by_cases hfc : 0 < failureCountOf results
        · simp only [hfc, if_true]
          rw [userTokenDocs_removeInvalidTokens_ne _ _ _ _ _ _ hne, hp,
            userTokenDocs_update]
        · simp only [hfc, if_false]
          rw [hp, userTokenDocs_update]
      | failure msg =>
        rw [pn_device_fail env uid tokens tokenDocs nd s dev msg hdev hl hgw]
        by_cases ho : 0 < (otherTokensOf tokenDocs dev).length
        · simp only [ho, if_true]
          cases env.gateway (s.callLog ++ [deviceTokensOf tokenDocs dev]).length
            <;> rw [hp] <;> exact userTokenDocs_update _ _ _ _ _
        · simp only [ho, if_false]
          rw [hp]
          exact userTokenDocs_update _ _ _ _ _
    · by_cases ho : 0 < (otherTokensOf tokenDocs dev).length
      · cases hgw : env.gateway s.callLog.length with
        | success results =>
          rw [pn_fallback_ok env uid tokens tokenDocs nd s dev results
            hdev hl ho hgw]
          by_cases hfc : 0 < failureCountOf results
          · simp only [hfc, if_true]
            rw [userTokenDocs_removeInvalidTokens_ne _ _ _ _ _ _ hne, hp,
              userTokenDocs_update]
          · simp only [hfc, if_false]
            rw [hp, userTokenDocs_update]
        | failure msg =>
          rw [pn_fallback_fail env uid tokens tokenDocs nd s dev msg
            hdev hl ho hgw]
          rw [hp, userTokenDocs_update]
      · rw [pn_noTokens env uid tokens tokenDocs nd s dev hdev hl ho]
        rw [hp]
        exact userTokenDocs_update _ _ _ _ _

/-! ## Group-body fold lemmas -/

theorem goodMark_markSentNoTokens (ts : Nat) :
    GoodMark (markSentNoTokens ts) := by
  constructor
  · exact fun d => Or.inl rfl
  · intro d _ hc
    exact absurd (Option.some.inj hc) (by decide)

theorem foldl_mark_chain (env : Env) (ns : List SnapDoc) (s : CycleState)
    (hsh : ∀ nd ∈ ns, ∃ u' n', nd.refParts = notifRefParts u' n')
    (u n : String) :
    MarkChain (s.db.getNotif u n)
      ((ns.foldl (fun s n' => { s with db := (updateNotifData s.db n'.refParts
          (markSentNoTokens env.serverTs)) }) s).db.getNotif u n) := by
  induction ns generalizing s with
  | nil => exact MarkChain.refl _
  | cons nd rest ih =>
    rw [List.foldl_cons]
    refine MarkChain.trans ?_ (ih _ (fun x hx => hsh x (List.mem_cons_of_mem _ hx)))
    obtain ⟨u', n', hp⟩ := hsh nd (List.mem_cons_self _ _)
    show MarkChain (s.db.getNotif u n)
      ((updateNotifData s.db nd.refParts (markSentNoTokens env.serverTs)).getNotif u n)
    rw [hp]
    by_cases hmat : u' = u ∧ n' = n
    · obtain ⟨rfl, rfl⟩ := hmat
      rw [getNotif_update_self]
      exact MarkChain.step (MarkChain.refl _) (goodMark_markSentNoTokens _)
    · rw [getNotif_update_other _ _ _ _ _ _ hmat]
      exact MarkChain.refl _

theorem foldl_mark_frame (env : Env) (ns : List SnapDoc) (s : CycleState)
    (u n : String)
    (hne : ∀ nd ∈ ns, nd.refParts ≠ notifRefParts u n)
    (hsh : ∀ nd ∈ ns, ∃ u' n', nd.refParts = notifRefParts u' n') :
    (ns.foldl (fun s n' => { s with db := (updateNotifData s.db n'.refParts
        (markSentNoTokens env.serverTs)) }) s).db.getNotif u n =
      s.db.getNotif u n := by
  induction ns generalizing s with
  | nil => rfl
  | cons nd rest ih =>
    rw [List.foldl_cons,
      ih _ (fun x hx => hne x (List.mem_cons_of_mem _ hx))
        (fun x hx => hsh x (List.mem_cons_of_mem _ hx))]
    obtain ⟨u', n', hp⟩ := hsh nd (List.mem_cons_self _ _)
    show (updateNotifData s.db nd.refParts (markSentNoTokens env.serverTs)).getNotif u n
      = s.db.getNotif u n
    rw [hp]
    apply getNotif_update_other
    rintro ⟨rfl, rfl⟩
    exact hne nd (List.mem_cons_self _ _) hp

theorem foldl_mark_sentNoTok_pres (env : Env) (ns : List SnapDoc)
    (s : CycleState) (u n : String)
    (hsh : ∀ nd ∈ ns, ∃ u' n', nd.refParts = notifRefParts u' n')
    (hpre : SentNoTokensOpt (s.db.getNotif u n)) :
    SentNoTokensOpt
      ((ns.foldl (fun s n' => { s with db := (updateNotifData s.db n'.refParts
          (markSentNoTokens env.serverTs)) }) s).db.getNotif u n) := by
  induction ns generalizing s with
  | nil => exact hpre
  | cons nd rest ih =>
    rw [List.foldl_cons]
    apply ih _ (fun x hx => hsh x (List.mem_cons_of_mem _ hx))
    obtain ⟨u', n', hp⟩ := hsh nd (List.mem_cons_self _ _)
    show SentNoTokensOpt
      ((updateNotifData s.db nd.refParts (markSentNoTokens env.serverTs)).getNotif u n)
    rw [hp]
    by_cases hmat : u' = u ∧ n' = n
    · obtain ⟨rfl, rfl⟩ := hmat
      rw [getNotif_update_self]
      obtain ⟨d, hd, _, _⟩ := hpre
      rw [hd]
      exact ⟨_, rfl, rfl, rfl⟩
    · rw [getNotif_update_other _ _ _ _ _ _ hmat]
      exact hpre

theorem foldl_mark_sentNoTok_estab (env : Env) (ns : List SnapDoc)
    (s : CycleState) (doc : SnapDoc) (u n : String)
    (hp : doc.refParts = notifRefParts u n) :
    doc ∈ ns →
    (∀ nd ∈ ns, ∃ u' n', nd.refParts = notifRefParts u' n') →
    (s.db.getNotif u n).isSome = true →
    SentNoTokensOpt
      ((ns.foldl (fun s n' => { s with db := (updateNotifData s.db n'.refParts
          (markSentNoTokens env.serverTs)) }) s).db.getNotif u n) := by
  induction ns generalizing s with
  | nil => intro hdoc; cases hdoc
  | cons nd rest ih =>
    intro hdoc hsh hpres
    rw [List.foldl_cons]
    have hsh' : ∀ x ∈ rest, ∃ u' n', x.refParts = notifRefParts u' n' :=
      fun x hx => hsh x (List.mem_cons_of_mem _ hx)
    rcases List.mem_cons.mp hdoc with rfl | hmem
    · -- this step establishes the sent-without-delivery mark
      apply foldl_mark_sentNoTok_pres env rest _ u n hsh'
      show SentNoTokensOpt
        ((updateNotifData s.db doc.refParts (markSentNoTokens env.serverTs)).getNotif u n)
      rw [hp, getNotif_update_self]
      obtain ⟨d, hd⟩ := Option.isSome_iff_exists.mp hpres
      rw [hd]
      exact ⟨_, rfl, rfl, rfl⟩
    · apply ih _ hmem hsh'
      -- presence is preserved by the head step
      obtain ⟨u', n', hp'⟩ := hsh nd (List.mem_cons_self _ _)
      show ((updateNotifData s.db nd.refParts
        (markSentNoTokens env.serverTs)).getNotif u n).isSome = true
      rw [hp']
      by_cases hmat : u' = u ∧ n' = n
      · obtain ⟨rfl, rfl⟩ := hmat
        rw [getNotif_update_self, Option.isSome_map']
        exact hpres
      · rw [getNotif_update_other _ _ _ _ _ _ hmat]
        exact hpres

theorem foldl_mark_tokens (env : Env) (ns : List SnapDoc) (s : CycleState)
    (u : String)
    (hsh : ∀ nd ∈ ns, ∃ u' n', nd.refParts = notifRefParts u' n') :
    (ns.foldl (fun s n' => { s with db := (updateNotifData s.db n'.refParts
        (markSentNoTokens env.serverTs)) }) s).db.userTokenDocs u =
      s.db.userTokenDocs u := by
  induction ns generalizing s with
  | nil => rfl
  | cons nd rest ih =>
    rw [List.foldl_cons, ih _ (fun x hx => hsh x (List.mem_cons_of_mem _ hx))]
    obtain ⟨u', n', hp⟩ := hsh nd (List.mem_cons_self _ _)
    show (updateNotifData s.db nd.refParts
      (markSentNoTokens env.serverTs)).userTokenDocs u = s.db.userTokenDocs u
    rw [hp]
    exact userTokenDocs_update _ _ _ _ _

theorem foldl_pn_chain (env : Env) (uid : String) (tokens : List String)
    (tokenDocs : List TokenDoc) (ns : List SnapDoc) (s : CycleState)
    (hsh : ∀ nd ∈ ns, ∃ u' n', nd.refParts = notifRefParts u' n')
    (hnz : 0 < tokenDocs.length) (u n : String) :
    MarkChain (s.db.getNotif u n)
      ((ns.foldl (fun s n' => processNotification env uid tokens tokenDocs n' s)
          s).db.getNotif u n) := by
  induction ns generalizing s with
  | nil => exact MarkChain.refl _
  | cons nd rest ih =>
    rw [List.foldl_cons]
    exact MarkChain.trans
      (processNotification_chain env uid tokens tokenDocs nd s
        (hsh nd (List.mem_cons_self _ _)) hnz u n)
      (ih _ (fun x hx => hsh x (List.mem_cons_of_mem _ hx)))

theorem foldl_pn_frame (env : Env) (uid : String) (tokens : List String)
    (tokenDocs : List TokenDoc) (ns : List SnapDoc) (s : CycleState)
    (u n : String)
    (hne : ∀ nd ∈ ns, nd.refParts ≠ notifRefParts u n)
    (hsh : ∀ nd ∈ ns, ∃ u' n', nd.refParts = notifRefParts u' n') :
    (ns.foldl (fun s n' => processNotification env uid tokens tokenDocs n' s)
        s).db.getNotif u n = s.db.getNotif u n := by
  induction ns generalizing s with
  | nil => rfl
  | cons nd rest ih =>
    rw [List.foldl_cons,
      ih _ (fun x hx => hne x (List.mem_cons_of_mem _ hx))
        (fun x hx => hsh x (List.mem_cons_of_mem _ hx))]
    exact processNotification_frame env uid tokens tokenDocs nd s u n
      (hsh nd (List.mem_cons_self _ _)) (hne nd (List.mem_cons_self _ _))

theorem foldl_pn_terminal_estab (env : Env) (uid : String)
    (tokens : List String) (tokenDocs : List TokenDoc) (ns : List SnapDoc)
    (s : CycleState) (doc : SnapDoc) (u n : String)
    (hp : doc.refParts = notifRefParts u n)
    (hnz : 0 < tokenDocs.length) :
    doc ∈ ns →
    (∀ nd ∈ ns, ∃ u' n', nd.refParts = notifRefParts u' n') →
    (s.db.getNotif u n).isSome = true →
    TerminalOpt
      ((ns.foldl (fun s n' => processNotification env uid tokens tokenDocs n' s)
          s).db.getNotif u n) := by
  induction ns generalizing s with
  | nil => intro hdoc; cases hdoc
  | cons nd rest ih =>
    intro hdoc hsh hpres
    rw [List.foldl_cons]
    have hsh' : ∀ x ∈ rest, ∃ u' n', x.refParts = notifRefParts u' n' :=
      fun x hx => hsh x (List.mem_cons_of_mem _ hx)
    rcases List.mem_cons.mp hdoc with rfl | hmem
    · exact MarkChain.terminal
        (foldl_pn_chain env uid tokens tokenDocs rest _ hsh' hnz u n)
        (processNotification_establish env uid tokens tokenDocs doc s u n
          hp hpres)
    · apply ih _ hmem hsh'
      have hch := processNotification_chain env uid tokens tokenDocs nd s
        (hsh nd (List.mem_cons_self _ _)) hnz u n
      rw [MarkChain.isSome_eq hch]
      exact hpres

theorem foldl_pn_tokens_ne (env : Env) (uid : String) (tokens : List String)
    (tokenDocs : List TokenDoc) (ns : List SnapDoc) (s : CycleState)
    (u : String) (hne : uid ≠ u)
    (hsh : ∀ nd ∈ ns, ∃ u' n', nd.refParts = notifRefParts u' n') :
    (ns.foldl (fun s n' => processNotification env uid tokens tokenDocs n' s)
        s).db.userTokenDocs u = s.db.userTokenDocs u := by
  induction ns generalizing s with
  | nil => rfl
  | cons nd rest ih =>
    rw [List.foldl_cons, ih _ (fun x hx => hsh x (List.mem_cons_of_mem _ hx))]
    exact processNotification_tokens_ne env uid tokens tokenDocs nd s u hne
      (hsh nd (List.mem_cons_self _ _))

/-! ## Group-body and user-loop lemmas -/

theorem processGroupBody_eq (env : Env) (uid : String) (ns : List SnapDoc)
    (s : CycleState) :
    processGroupBody env uid ns s =
      if ((s.db.userTokenDocs uid).map (·.id)).length == 0 then
        ns.foldl (fun s' n => { s' with db := (updateNotifData s'.db n.refParts
          (markSentNoTokens env.serverTs)) }) s
      else
        ns.foldl (fun s' n => processNotification env uid
          ((s.db.userTokenDocs uid).map (·.id)) (s.db.userTokenDocs uid) n s') s :=
  rfl

theorem processGroupBody_chain (env : Env) (uid : String) (ns : List SnapDoc)
    (s : CycleState)
    (hsh : ∀ nd ∈ ns, ∃ u' n', nd.refParts = notifRefParts u' n')
    (u n : String) :
    MarkChain (s.db.getNotif u n)
      ((processGroupBody env uid ns s).db.getNotif u n) := by
  rw [processGroupBody_eq]
  split
  · exact foldl_mark_chain env ns s hsh u n
  · next hz =>
    have hnz : 0 < (s.db.userTokenDocs uid).length := by
      simp only [List.length_map, beq_iff_eq] at hz
      omega
    exact foldl_pn_chain env uid _ _ ns s hsh hnz u n

theorem processGroupBody_frame (env : Env) (uid : String) (ns : List SnapDoc)
    (s : CycleState) (u n : String)
    (hne : ∀ nd ∈ ns, nd.refParts ≠ notifRefParts u n)
    (hsh : ∀ nd ∈ ns, ∃ u' n', nd.refParts = notifRefParts u' n') :
    (processGroupBody env uid ns s).db.getNotif u n = s.db.getNotif u n := by
  rw [processGroupBody_eq]
  split
  · exact foldl_mark_frame env ns s u n hne hsh
  · exact foldl_pn_frame env uid _ _ ns s u n hne hsh

theorem processGroupBody_terminal_estab (env : Env) (uid : String)
    (ns : List SnapDoc) (s : CycleState) (doc : SnapDoc) (u n : String)
    (hdoc : doc ∈ ns) (hp : doc.refParts = notifRefParts u n)
    (hsh : ∀ nd ∈ ns, ∃ u' n', nd.refParts = notifRefParts u' n')
    (hpres : (s.db.getNotif u n).isSome = true) :
    TerminalOpt ((processGroupBody env uid ns s).db.getNotif u n) := by
  rw [processGroupBody_eq]
  split
  · obtain ⟨d, hd, hs, _⟩ :=
      foldl_mark_sentNoTok_estab env ns s doc u n hp hdoc hsh hpres
    exact ⟨d, hd, Or.inl hs⟩
  · next hz =>
    have hnz : 0 < (s.db.userTokenDocs uid).length := by
      simp only [List.length_map, beq_iff_eq] at hz
      omega
    exact foldl_pn_terminal_estab env uid _ _ ns s doc u n hp hnz hdoc hsh hpres

theorem processGroupBody_tokens_ne (env : Env) (uid : String)
    (ns : List SnapDoc) (s : CycleState) (u : String) (hne : uid ≠ u)
    (hsh : ∀ nd ∈ ns, ∃ u' n', nd.refParts = notifRefParts u' n') :
    (processGroupBody env uid ns s).db.userTokenDocs u =
      s.db.userTokenDocs u := by
  rw [processGroupBody_eq]
  split
  · exact foldl_mark_tokens env ns s u hsh
  · exact foldl_pn_tokens_ne env uid _ _ ns s u hne hsh

theorem foldl_mark_callLog (env : Env) (ns : List SnapDoc) (s : CycleState) :
    (ns.foldl (fun s' n => { s' with db := (updateNotifData s'.db n.refParts
        (markSentNoTokens env.serverTs)) }) s).callLog = s.callLog := by
  induction ns generalizing s with
  | nil => rfl
  | cons nd rest ih => rw [List.foldl_cons, ih]

/-- A recipient group with an empty token registry makes no gateway
call. -/
theorem processGroupBody_noCalls (env : Env) (uid : String)
    (ns : List SnapDoc) (s : CycleState)
    (htok : s.db.userTokenDocs uid = []) :
    (processGroupBody env uid ns s).callLog = s.callLog := by
  rw [processGroupBody_eq, htok]
  simp only [List.map_nil, List.length_nil]
  rw [if_pos (show ((0:Nat) == 0) = true from rfl)]
  exact foldl_mark_callLog env ns s

/-- A recipient group with an empty token registry marks each of its
notifications sent-without-delivery. -/
theorem processGroupBody_sentNoTok (env : Env) (uid : String)
    (ns : List SnapDoc) (s : CycleState) (doc : SnapDoc) (u n : String)
    (hdoc : doc ∈ ns) (hp : doc.refParts = notifRefParts u n)
    (hsh : ∀ nd ∈ ns, ∃ u' n', nd.refParts = notifRefParts u' n')
    (htok : s.db.userTokenDocs uid = [])
    (hpres : (s.db.getNotif u n).isSome = true) :
    SentNoTokensOpt ((processGroupBody env uid ns s).db.getNotif u n) := by
  rw [processGroupBody_eq, htok]
  simp only [List.map_nil, List.length_nil]
  rw [if_pos (show ((0:Nat) == 0) = true from rfl)]
  exact foldl_mark_sentNoTok_estab env ns s doc u n hp hdoc hsh hpres

theorem processGroupBody_sentNoTok_pres (env : Env) (uid : String)
    (ns : List SnapDoc) (s : CycleState) (u n : String)
    (hne : ∀ nd ∈ ns, nd.refParts ≠ notifRefParts u n)
    (hsh : ∀ nd ∈ ns, ∃ u' n', nd.refParts = notifRefParts u' n')
    (hpre : SentNoTokensOpt (s.db.getNotif u n)) :
    SentNoTokensOpt ((processGroupBody env uid ns s).db.getNotif u n) := by
  rw [processGroupBody_frame env uid ns s u n hne hsh]
  exact hpre

theorem processUsers_ok (env : Env) (groups : List (String × List SnapDoc))
    (s : CycleState) (hfetch : ∀ u', env.tokenFetchFails u' = false) :
    processUsers env groups s = (none, runGroups env groups s) := by
  induction groups generalizing s with
  | nil => rfl
  | cons g rest ih =>
    unfold processUsers runGroups
    rw [hfetch g.1]
    simp only [Bool.false_eq_true, if_false, List.foldl_cons]
    exact ih _

theorem processUsers_chain (env : Env)
    (groups : List (String × List SnapDoc)) (s : CycleState)
    (hsh : ∀ g ∈ groups, ∀ nd ∈ g.2, ∃ u' n', nd.refParts = notifRefParts u' n')
    (u n : String) :
    MarkChain (s.db.getNotif u n)
      ((processUsers env groups s).2.db.getNotif u n) := by
  induction groups generalizing s with
  | nil => exact MarkChain.refl _
  | cons g rest ih =>
    unfold processUsers
    by_cases hf : env.tokenFetchFails g.1 = true
    · simp only [hf, if_true]
      exact MarkChain.refl _
    · simp only [Bool.not_eq_true] at hf
      simp only [hf, Bool.false_eq_true, if_false]
      exact MarkChain.trans
        (processGroupBody_chain env g.1 g.2 s
          (hsh g (List.mem_cons_self _ _)) u n)
        (ih _ (fun g' hg' => hsh g' (List.mem_cons_of_mem _ hg')))

theorem processUsers_frame (env : Env)
    (groups : List (String × List SnapDoc)) (s : CycleState) (u n : String)
    (hne : ∀ g ∈ groups, ∀ nd ∈ g.2, nd.refParts ≠ notifRefParts u n)
    (hsh : ∀ g ∈ groups, ∀ nd ∈ g.2, ∃ u' n', nd.refParts = notifRefParts u' n') :
    (processUsers env groups s).2.db.getNotif u n = s.db.getNotif u n := by
  induction groups generalizing s with
  | nil => rfl
  | cons g rest ih =>
    unfold processUsers
    by_cases hf : env.tokenFetchFails g.1 = true
    · simp only [hf, if_true]
    · simp only [Bool.not_eq_true] at hf
      simp only [hf, Bool.false_eq_true, if_false]
      rw [ih _ (fun g' hg' => hne g' (List.mem_cons_of_mem _ hg'))
        (fun g' hg' => hsh g' (List.mem_cons_of_mem _ hg'))]
      exact processGroupBody_frame env g.1 g.2 s u n
        (hne g (List.mem_cons_self _ _)) (hsh g (List.mem_cons_self _ _))

theorem runGroups_chain (env : Env) (groups : List (String × List SnapDoc))
    (s : CycleState)
    (hsh : ∀ g ∈ groups, ∀ nd ∈ g.2, ∃ u' n', nd.refParts = notifRefParts u' n')
    (u n : String) :
    MarkChain (s.db.getNotif u n)
      ((runGroups env groups s).db.getNotif u n) := by
  unfold runGroups
  induction groups generalizing s with
  | nil => exact MarkChain.refl _
  | cons g rest ih =>
    rw [List.foldl_cons]
    exact MarkChain.trans
      (processGroupBody_chain env g.1 g.2 s
        (hsh g (List.mem_cons_self _ _)) u n)
      (ih _ (fun g' hg' => hsh g' (List.mem_cons_of_mem _ hg')))

theorem runGroups_frame (env : Env) (groups : List (String × List SnapDoc))
    (s : CycleState) (u n : String)
    (hne : ∀ g ∈ groups, ∀ nd ∈ g.2, nd.refParts ≠ notifRefParts u n)
    (hsh : ∀ g ∈ groups, ∀ nd ∈ g.2, ∃ u' n', nd.refParts = notifRefParts u' n') :
    (runGroups env groups s).db.getNotif u n = s.db.getNotif u n := by
  unfold runGroups
  induction groups generalizing s with
  | nil => rfl
  | cons g rest ih =>
    rw [List.foldl_cons,
      ih _ (fun g' hg' => hne g' (List.mem_cons_of_mem _ hg'))
        (fun g' hg' => hsh g' (List.mem_cons_of_mem _ hg'))]
    exact processGroupBody_frame env g.1 g.2 s u n
      (hne g (List.mem_cons_self _ _)) (hsh g (List.mem_cons_self _ _))

theorem runGroups_terminal_estab (env : Env)
    (groups : List (String × List SnapDoc)) (s : CycleState)
    (g : String × List SnapDoc) (doc : SnapDoc) (u n : String)
    (hp : doc.refParts = notifRefParts u n) :
    g ∈ groups → doc ∈ g.2 →
    (∀ g' ∈ groups, ∀ nd ∈ g'.2, ∃ u' n', nd.refParts = notifRefParts u' n') →
    (s.db.getNotif u n).isSome = true →
    TerminalOpt ((runGroups env groups s).db.getNotif u n) := by
  unfold runGroups
  induction groups generalizing s with
  | nil => intro hg; cases hg
  | cons g0 rest ih =>
    intro hg hdoc hsh hpres
    rw [List.foldl_cons]
    have hsh' : ∀ g' ∈ rest, ∀ nd ∈ g'.2, ∃ u' n', nd.refParts = notifRefParts u' n' :=
      fun g' hg' => hsh g' (List.mem_cons_of_mem _ hg')
    rcases List.mem_cons.mp hg with rfl | hgrest
    · exact MarkChain.terminal
        (runGroups_chain env rest _ hsh' u n)
        (processGroupBody_terminal_estab env g.1 g.2 s doc u n hdoc hp
          (hsh g (List.mem_cons_self _ _)) hpres)
    · apply ih _ hgrest hdoc hsh'
      rw [MarkChain.isSome_eq (processGroupBody_chain env g0.1 g0.2 s
        (hsh g0 (List.mem_cons_self _ _)) u n)]
      exact hpres

/-! ## Well-formedness preservation -/

theorem map_map_congr {α β : Type} (g : α → α) (k : α → β)
    (hg : ∀ a, k (g a) = k a) (l : List α) :
    (l.map g).map k = l.map k := by
  induction l with
  | nil => rfl
  | cons a rest ih => simp only [List.map_cons, hg, ih]

theorem WF_updateNotifData (db : DB) (parts : List String)
    (f : NotifData → NotifData) (hwf : db.WF) :
    (updateNotifData db parts f).WF := by
  unfold updateNotifData
  split
  · rename_i uid nid
    constructor
    · show ((db.users.map _).map (fun u : UserDoc => u.uid)).Nodup
      rw [map_map_congr _ _ (fun u => uid_update_fun uid nid f u)]
      exact hwf.1
    · intro u' hu'
      obtain ⟨u0, hu0, rfl⟩ := List.mem_map.mp hu'
      by_cases hc : (u0.uid == uid) = true
      · simp only [hc, if_true]
        refine ⟨?_, (hwf.2 u0 hu0).2⟩
        show ((u0.pushNotifications.map _).map
          (fun p : String × NotifData => p.1)).Nodup
        rw [map_map_congr _ _ (fun p => fst_update_fun nid f p)]
        exact (hwf.2 u0 hu0).1
      · simp only [hc, Bool.false_eq_true, if_false]
        exact hwf.2 u0 hu0
  · exact hwf

theorem WF_deleteTokenDoc (db : DB) (uid tok : String) (hwf : db.WF) :
    (deleteTokenDoc db uid tok).WF := by
  unfold deleteTokenDoc
  constructor
  · show ((db.users.map _).map (fun u : UserDoc => u.uid)).Nodup
    rw [map_map_congr _ _ (fun u : UserDoc => by split <;> rfl)]
    exact hwf.1
  · intro u' hu'
    obtain ⟨u0, hu0, rfl⟩ := List.mem_map.mp hu'
    by_cases hc : (u0.uid == uid) = true
    · simp only [hc, if_true]
      refine ⟨(hwf.2 u0 hu0).1, ?_⟩
      exact List.Nodup.sublist
        (List.Sublist.map (·.id) (List.filter_sublist u0.fcmTokens))
        (hwf.2 u0 hu0).2
    · simp only [hc, Bool.false_eq_true, if_false]
      exact hwf.2 u0 hu0

theorem WF_removeInvalidTokens (env : Env) (db : DB) (uid : String)
    (tokens : List String) (results : List Bool) (hwf : db.WF) :
    (removeInvalidTokens env db uid tokens results).WF := by
  unfold removeInvalidTokens
  generalize results.zip tokens = l
  induction l generalizing db with
  | nil => exact hwf
  | cons p rest ih =>
    rw [List.foldl_cons]
    apply ih
    by_cases h1 : p.1 = true
    · simp only [h1, if_true]
      exact hwf
    · simp only [Bool.not_eq_true] at h1
      by_cases h2 : env.deleteFails uid p.2 = true
      · simp only [h1, Bool.false_eq_true, if_false, h2, if_true]
        exact hwf
      · simp only [Bool.not_eq_true] at h2
        simp only [h1, Bool.false_eq_true, if_false, h2]
        exact WF_deleteTokenDoc db uid p.2 hwf

theorem WF_processNotification (env : Env) (uid : String)
    (tokens : List String) (tokenDocs : List TokenDoc) (nd : SnapDoc)
    (s : CycleState) (hwf : s.db.WF) :
    (processNotification env uid tokens tokenDocs nd s).db.WF := by
  cases hdev : nd.data.deviceId with
  | none =>
    cases hgw : env.gateway s.callLog.length with
    | success results =>
      rw [pn_broadcast_ok env uid tokens tokenDocs nd s results hdev hgw]
      by_cases hfc : 0 < failureCountOf results
      · simp only [hfc, if_true]
        exact WF_removeInvalidTokens _ _ _ _ _
          (WF_updateNotifData _ _ _ hwf)
      · simp only [hfc, if_false]
        exact WF_updateNotifData _ _ _ hwf
    | failure msg =>
      rw [pn_broadcast_fail env uid tokens tokenDocs nd s msg hdev hgw]
      exact WF_updateNotifData _ _ _ hwf
  | some dev =>
    by_cases hl : 0 < (deviceTokensOf tokenDocs dev).length
    · cases hgw : env.gateway s.callLog.length with
      | success results =>
        rw [pn_device_ok env uid tokens tokenDocs nd s dev results hdev hl hgw]
        by_cases hfc : 0 < failureCountOf results
        · simp only [hfc, if_true]
          exact WF_removeInvalidTokens _ _ _ _ _
            (WF_updateNotifData _ _ _ hwf)
        · simp only [hfc, if_false]
          exact WF_updateNotifData _ _ _ hwf
      | failure msg =>
        rw [pn_device_fail env uid tokens tokenDocs nd s dev msg hdev hl hgw]
        by_cases ho : 0 < (otherTokensOf tokenDocs dev).length
        · simp only [ho, if_true]
          cases env.gateway (s.callLog ++ [deviceTokensOf tokenDocs dev]).length
            <;> exact WF_updateNotifData _ _ _ hwf
        · simp only [ho, if_false]
          exact WF_updateNotifData _ _ _ hwf
    · by_cases ho : 0 < (otherTokensOf tokenDocs dev).length
      · cases hgw : env.gateway s.callLog.length with
        | success results =>
          rw [pn_fallback_ok env uid tokens tokenDocs nd s dev results
            hdev hl ho hgw]
          by_cases hfc : 0 < failureCountOf results
          · simp only [hfc, if_true]
            exact WF_removeInvalidTokens _ _ _ _ _
              (WF_updateNotifData _ _ _ hwf)
          · simp only [hfc, if_false]
            exact WF_updateNotifData _ _ _ hwf
        | failure msg =>
          rw [pn_fallback_fail env uid tokens tokenDocs nd s dev msg
            hdev hl ho hgw]
          exact WF_updateNotifData _ _ _ hwf
      · rw [pn_noTokens env uid tokens tokenDocs nd s dev hdev hl ho]
        exact WF_updateNotifData _ _ _ hwf

theorem foldl_mark_WF (env : Env) (ns : List SnapDoc) (s : CycleState)
    (hwf : s.db.WF) :
    (ns.foldl (fun s' n => { s' with db := (updateNotifData s'.db n.refParts
        (markSentNoTokens env.serverTs)) }) s).db.WF := by
  induction ns generalizing s with
  | nil => exact hwf
  | cons nd rest ih =>
    rw [List.foldl_cons]
    apply ih
    show (updateNotifData s.db nd.refParts (markSentNoTokens env.serverTs)).WF
    exact WF_updateNotifData _ _ _ hwf

theorem foldl_pn_WF (env : Env) (uid : String) (tokens : List String)
    (tokenDocs : List TokenDoc) (ns : List SnapDoc) (s : CycleState)
    (hwf : s.db.WF) :
    (ns.foldl (fun s' n => processNotification env uid tokens tokenDocs n s')
        s).db.WF := by
  induction ns generalizing s with
  | nil => exact hwf
  | cons nd rest ih =>
    rw [List.foldl_cons]
    exact ih _ (WF_processNotification _ _ _ _ _ _ hwf)

theorem WF_processGroupBody (env : Env) (uid : String) (ns : List SnapDoc)
    (s : CycleState) (hwf : s.db.WF) :
    (processGroupBody env uid ns s).db.WF := by
  rw [processGroupBody_eq]
  split
  · exact foldl_mark_WF env ns s hwf
  · exact foldl_pn_WF env uid _ _ ns s hwf

theorem WF_processUsers (env : Env) (groups : List (String × List SnapDoc))
    (s : CycleState) (hwf : s.db.WF) :
    (processUsers env groups s).2.db.WF := by
  induction groups generalizing s with
  | nil => exact hwf
  | cons g rest ih =>
    unfold processUsers
    by_cases hf : env.tokenFetchFails g.1 = true
    · simp only [hf, if_true]
      exact hwf
    · simp only [Bool.not_eq_true] at hf
      simp only [hf, Bool.false_eq_true, if_false]
      exact ih _ (WF_processGroupBody _ _ _ _ hwf)

/-! ## The zero-token recipient across the whole user loop -/

theorem runGroups_cons (env : Env) (g : String × List SnapDoc)
    (rest : List (String × List SnapDoc)) (s : CycleState) :
    runGroups env (g :: rest) s =
      runGroups env rest (processGroupBody env g.1 g.2 s) := rfl

theorem runGroups_sentNoTok (env : Env)
    (groups : List (String × List SnapDoc)) (s : CycleState)
    (uKey n : String) (doc : SnapDoc)
    (hp : doc.refParts = notifRefParts uKey n) :
    ∀ g, g ∈ groups → g.1 = uKey → doc ∈ g.2 →
    (∀ g' ∈ groups, ∀ nd ∈ g'.2, nd.refParts = notifRefParts g'.1 nd.id) →
    ((groups.map (·.1)).Nodup) →
    s.db.userTokenDocs uKey = [] →
    (s.db.getNotif uKey n).isSome = true →
    SentNoTokensOpt ((runGroups env groups s).db.getNotif uKey n) := by
  induction groups generalizing s with
  | nil => intro g hg; cases hg
  | cons g0 rest ih =>
    intro g hg hkey hdoc hshape hnodup htok hpres
    rw [runGroups_cons]
    have hshape' : ∀ g' ∈ rest, ∀ nd ∈ g'.2,
        nd.refParts = notifRefParts g'.1 nd.id :=
      fun g' hg' => hshape g' (List.mem_cons_of_mem _ hg')
    have hnodup' : ((rest.map (·.1)).Nodup) := by
      rw [List.map_cons] at hnodup
      exact (List.nodup_cons.mp hnodup).2
    have hkey0_notin : g0.1 ∉ rest.map (·.1) := by
      rw [List.map_cons] at hnodup
      exact (List.nodup_cons.mp hnodup).1
    rcases List.mem_cons.mp hg with rfl | hgrest
    · -- this group is the zero-token recipient's
      have hsh0 : ∀ nd ∈ g.2, ∃ u' n', nd.refParts = notifRefParts u' n' :=
        fun nd hnd => ⟨g.1, nd.id, hshape g (List.mem_cons_self _ _) nd hnd⟩
      have hstep := processGroupBody_sentNoTok env g.1 g.2 s doc uKey n hdoc
        hp hsh0 (hkey ▸ htok) hpres
      -- later groups have different keys, so they never touch this read
      have hfr : (runGroups env rest (processGroupBody env g.1 g.2 s)).db.getNotif
          uKey n = (processGroupBody env g.1 g.2 s).db.getNotif uKey n := by
        apply runGroups_frame
        · intro g' hg' nd hnd heq
          have hnd' := hshape' g' hg' nd hnd
          rw [hnd'] at heq
          have := (notifRefParts_inj heq).1
          apply hkey0_notin
          rw [hkey, ← this]
          exact List.mem_map.mpr ⟨g', hg', rfl⟩
        · exact fun g' hg' nd hnd => ⟨g'.1, nd.id, hshape' g' hg' nd hnd⟩
      rw [hfr]
      exact hstep
    · -- the group processed now has a different key
      have hkey0 : g0.1 ≠ uKey := by
        intro hh
        apply hkey0_notin
        rw [hh, ← hkey]
        exact List.mem_map.mpr ⟨g, hgrest, rfl⟩
      have hsh0 : ∀ nd ∈ g0.2, ∃ u' n', nd.refParts = notifRefParts u' n' :=
        fun nd hnd => ⟨g0.1, nd.id, hshape g0 (List.mem_cons_self _ _) nd hnd⟩
      apply ih _ g hgrest hkey hdoc hshape' hnodup'
      · rw [processGroupBody_tokens_ne env g0.1 g0.2 s uKey hkey0 hsh0]
        exact htok
      · rw [MarkChain.isSome_eq
          (processGroupBody_chain env g0.1 g0.2 s hsh0 uKey n)]
        exact hpres

/-! ## Cycle-level reductions and invariants -/

theorem userTokenDocs_of_mem (db : DB) (u : UserDoc) (hwf : db.WF)
    (hu : u ∈ db.users) : db.userTokenDocs u.uid = u.fcmTokens := by
  unfold DB.userTokenDocs
  rw [find?_uid_of_nodup db.users u hwf.1 hu]

theorem getNotif_eq_some_mem (db : DB) (u n : String) (d : NotifData)
    (h : db.getNotif u n = some d) :
    ∃ u0 ∈ db.users, u0.uid = u ∧ (n, d) ∈ u0.pushNotifications := by
  unfold DB.getNotif at h
  cases hf : db.users.find? (fun x => x.uid == u) with
  | none => rw [hf] at h; cases h
  | some u0 =>
    rw [hf] at h
    have h2 : (u0.pushNotifications.find? (fun p => p.1 == n)).map (·.2) =
        some d := h
    cases hg : u0.pushNotifications.find? (fun p => p.1 == n) with
    | none => rw [hg] at h2; cases h2
    | some q =>
      rw [hg] at h2
      have hq2 : q.2 = d := Option.some.inj h2
      have hq1 : q.1 = n := by
        have h' := List.find?_some hg
        exact beq_iff_eq.mp h'
      have hqe : q = (n, d) := Prod.ext hq1 hq2
      have hu0 : u0.uid = u := by
        have h' := List.find?_some hf
        exact beq_iff_eq.mp h'
      exact ⟨u0, List.mem_of_find?_eq_some hf, hu0,
        hqe ▸ List.mem_of_find?_eq_some hg⟩

theorem cycle_resolverFail (env : Env) (db0 : DB) (now : Int)
    (h : env.resolverFails = true) :
    checkAndSendNotifications env db0 now =
      ⟨.error "resolver query failed", db0, []⟩ := by
  unfold checkAndSendNotifications
  rw [h]
  rfl

theorem cycle_empty (env : Env) (db0 : DB) (now : Int)
    (hres : env.resolverFails = false)
    (hemp : dueSnapshot db0 now (now - 60000) = []) :
    checkAndSendNotifications env db0 now = ⟨.ok 0, db0, []⟩ := by
  unfold checkAndSendNotifications
  rw [hres]
  simp only [Bool.false_eq_true, if_false, hemp, List.isEmpty_nil, if_true]

theorem cycle_nonempty (env : Env) (db0 : DB) (now : Int)
    (hres : env.resolverFails = false)
    (hne : dueSnapshot db0 now (now - 60000) ≠ []) :
    checkAndSendNotifications env db0 now =
      (match processUsers env (groupByUser (dueSnapshot db0 now (now - 60000)))
          ⟨db0, 0, []⟩ with
       | (some e, s) => ⟨.error e, s.db, s.callLog⟩
       | (none, s) => ⟨.ok s.totalSent, s.db, s.callLog⟩) := by
  unfold checkAndSendNotifications
  rw [hres]
  have hemp : (dueSnapshot db0 now (now - 60000)).isEmpty = false := by
    cases h : (dueSnapshot db0 now (now - 60000)).isEmpty
    · rfl
    · exact absurd (List.isEmpty_iff.mp h) hne
  simp only [Bool.false_eq_true, if_false, hemp]

theorem cycle_run (env : Env) (db0 : DB) (now : Int)
    (hres : env.resolverFails = false)
    (hfetch : ∀ u', env.tokenFetchFails u' = false)
    (hne : dueSnapshot db0 now (now - 60000) ≠ []) :
    checkAndSendNotifications env db0 now =
      ⟨.ok (runGroups env (groupByUser (dueSnapshot db0 now (now - 60000)))
          ⟨db0, 0, []⟩).totalSent,
       (runGroups env (groupByUser (dueSnapshot db0 now (now - 60000)))
          ⟨db0, 0, []⟩).db,
       (runGroups env (groupByUser (dueSnapshot db0 now (now - 60000)))
          ⟨db0, 0, []⟩).callLog⟩ := by
  rw [cycle_nonempty env db0 now hres hne,
    processUsers_ok env _ _ hfetch]

theorem groups_shaped (db0 : DB) (now ago : Int) :
    ∀ g ∈ groupByUser (dueSnapshot db0 now ago), ∀ nd ∈ g.2,
      ∃ u' n', nd.refParts = notifRefParts u' n' := by
  intro g hg nd hnd
  have hs := groupByUser_sound (dueSnapshot db0 now ago) g hg nd hnd
  exact ⟨userIdOfParts nd.refParts, nd.id,
    refParts_shape_of_mem db0 now ago nd hs.1⟩

theorem groups_keyed (db0 : DB) (now ago : Int) :
    ∀ g ∈ groupByUser (dueSnapshot db0 now ago), ∀ nd ∈ g.2,
      nd.refParts = notifRefParts g.1 nd.id := by
  intro g hg nd hnd
  have hs := groupByUser_sound (dueSnapshot db0 now ago) g hg nd hnd
  rw [← hs.2]
  exact refParts_shape_of_mem db0 now ago nd hs.1

/-- Whatever the environment does, a cycle only applies terminal-status
marks to notification reads. -/
theorem cycle_chain (env : Env) (db0 : DB) (now : Int) (u n : String) :
    MarkChain (db0.getNotif u n)
      ((checkAndSendNotifications env db0 now).db.getNotif u n) := by
  by_cases hres : env.resolverFails = true
  · rw [cycle_resolverFail env db0 now hres]
    exact MarkChain.refl _
  · simp only [Bool.not_eq_true] at hres
    by_cases hemp : dueSnapshot db0 now (now - 60000) = []
    · rw [cycle_empty env db0 now hres hemp]
      exact MarkChain.refl _
    · rw [cycle_nonempty env db0 now hres hemp]
      have hch := processUsers_chain env
        (groupByUser (dueSnapshot db0 now (now - 60000))) ⟨db0, 0, []⟩
        (groups_shaped db0 now (now - 60000)) u n
      cases hpu : processUsers env
          (groupByUser (dueSnapshot db0 now (now - 60000))) ⟨db0, 0, []⟩ with
      | mk err s' =>
        rw [hpu] at hch
        cases err
        · exact hch
        · exact hch

/-- A notification whose ref is addressed by no snapshot doc is left
unchanged by the cycle. -/
theorem cycle_frame (env : Env) (db0 : DB) (now : Int) (u n : String)
    (hne : ∀ doc ∈ dueSnapshot db0 now (now - 60000),
      doc.refParts ≠ notifRefParts u n) :
    (checkAndSendNotifications env db0 now).db.getNotif u n =
      db0.getNotif u n := by
  by_cases hres : env.resolverFails = true
  · rw [cycle_resolverFail env db0 now hres]
  · simp only [Bool.not_eq_true] at hres
    by_cases hemp : dueSnapshot db0 now (now - 60000) = []
    · rw [cycle_empty env db0 now hres hemp]
    · rw [cycle_nonempty env db0 now hres hemp]
      have hfr := processUsers_frame env
        (groupByUser (dueSnapshot db0 now (now - 60000))) ⟨db0, 0, []⟩ u n
        (fun g hg nd hnd =>
          hne nd (groupByUser_sound _ g hg nd hnd).1)
        (groups_shaped db0 now (now - 60000))
      cases hpu : processUsers env
          (groupByUser (dueSnapshot db0 now (now - 60000))) ⟨db0, 0, []⟩ with
      | mk err s' =>
        rw [hpu] at hfr
        cases err
        · exact hfr
        · exact hfr

/-- Every selected notification is terminal after a cycle that completes
without raising. -/
theorem cycle_terminal (env : Env) (db0 : DB) (now : Int)
    (hwf : db0.WF) (hres : env.resolverFails = false)
    (hfetch : ∀ u', env.tokenFetchFails u' = false)
    (doc : SnapDoc) (hdoc : doc ∈ dueSnapshot db0 now (now - 60000)) :
    TerminalOpt ((checkAndSendNotifications env db0 now).db.getNotif
      (userIdOfParts doc.refParts) doc.id) := by
  have hne : dueSnapshot db0 now (now - 60000) ≠ [] := by
    intro h
    rw [h] at hdoc
    cases hdoc
  rw [cycle_run env db0 now hres hfetch hne]
  obtain ⟨g, hg, hkey, hdocg⟩ :=
    groupByUser_complete (dueSnapshot db0 now (now - 60000)) doc hdoc
  apply runGroups_terminal_estab env _ ⟨db0, 0, []⟩ g doc
    (userIdOfParts doc.refParts) doc.id
    (refParts_shape_of_mem db0 now (now - 60000) doc hdoc)
    hg hdocg (groups_shaped db0 now (now - 60000))
  show (db0.getNotif (userIdOfParts doc.refParts) doc.id).isSome = true
  rw [getNotif_of_mem_snapshot db0 now (now - 60000) doc hwf hdoc]
  rfl

/-- Every selected notification of a recipient with an empty token
registry ends sent-without-delivery. -/
theorem cycle_sentNoTok (env : Env) (db0 : DB) (now : Int)
    (hwf : db0.WF) (hres : env.resolverFails = false)
    (hfetch : ∀ u', env.tokenFetchFails u' = false)
    (u : UserDoc) (hu : u ∈ db0.users) (htok : u.fcmTokens = [])
    (doc : SnapDoc) (hdoc : doc ∈ dueSnapshot db0 now (now - 60000))
    (hkey : userIdOfParts doc.refParts = u.uid) :
    SentNoTokensOpt ((checkAndSendNotifications env db0 now).db.getNotif
      u.uid doc.id) := by
  have hne : dueSnapshot db0 now (now - 60000) ≠ [] := by
    intro h
    rw [h] at hdoc
    cases hdoc
  rw [cycle_run env db0 now hres hfetch hne]
  obtain ⟨g, hg, hgkey, hdocg⟩ :=
    groupByUser_complete (dueSnapshot db0 now (now - 60000)) doc hdoc
  apply runGroups_sentNoTok env _ ⟨db0, 0, []⟩ u.uid doc.id doc
    (hkey ▸ refParts_shape_of_mem db0 now (now - 60000) doc hdoc)
    g hg (hgkey.trans hkey) hdocg
    (groups_keyed db0 now (now - 60000))
    (groupByUser_keys_nodup _)
  · show db0.userTokenDocs u.uid = []
    rw [userTokenDocs_of_mem db0 u hwf hu]
    exact htok
  · show (db0.getNotif u.uid doc.id).isSome = true
    rw [← hkey, getNotif_of_mem_snapshot db0 now (now - 60000) doc hwf hdoc]
    rfl

theorem cycle_WF (env : Env) (db0 : DB) (now : Int) (hwf : db0.WF) :
    (checkAndSendNotifications env db0 now).db.WF := by
  by_cases hres : env.resolverFails = true
  · rw [cycle_resolverFail env db0 now hres]
    exact hwf
  · simp only [Bool.not_eq_true] at hres
    by_cases hemp : dueSnapshot db0 now (now - 60000) = []
    · rw [cycle_empty env db0 now hres hemp]
      exact hwf
    · rw [cycle_nonempty env db0 now hres hemp]
      have hw := WF_processUsers env
        (groupByUser (dueSnapshot db0 now (now - 60000))) ⟨db0, 0, []⟩ hwf
      cases hpu : processUsers env
          (groupByUser (dueSnapshot db0 now (now - 60000))) ⟨db0, 0, []⟩ with
      | mk err s' =>
        rw [hpu] at hw
        cases err
        · exact hw
        · exact hw

/-! ## Results of the cycle, and the second run's due set -/

theorem cycle_ok_result (env : Env) (db0 : DB) (now : Int)
    (hres : env.resolverFails = false)
    (hfetch : ∀ u', env.tokenFetchFails u' = false) :
    ∃ t, (checkAndSendNotifications env db0 now).result = .ok t := by
  by_cases hemp : dueSnapshot db0 now (now - 60000) = []
  · rw [cycle_empty env db0 now hres hemp]
    exact ⟨0, rfl⟩
  · rw [cycle_run env db0 now hres hfetch hemp]
    exact ⟨_, rfl⟩

theorem cycle_error_result (env : Env) (db0 : DB) (now : Int)
    (hres : env.resolverFails = true) :
    (checkAndSendNotifications env db0 now).result =
      .error "resolver query failed" := by
  rw [cycle_resolverFail env db0 now hres]

/-- After a cycle that completes without raising, the resolver finds no
due notification: everything it selected is terminal, and everything it
did not select is unchanged and hence was already rejected. -/
theorem dueSnapshot_after_cycle (env : Env) (db0 : DB) (now : Int)
    (hwf : db0.WF) (hres : env.resolverFails = false)
    (hfetch : ∀ u', env.tokenFetchFails u' = false) :
    dueSnapshot (checkAndSendNotifications env db0 now).db now
      (now - 60000) = [] := by
  apply List.eq_nil_iff_forall_not_mem.mpr
  intro doc hdoc
  have hwf1 : (checkAndSendNotifications env db0 now).db.WF :=
    cycle_WF env db0 now hwf
  have hg := getNotif_of_mem_snapshot _ now (now - 60000) doc hwf1 hdoc
  obtain ⟨u1, hu1, p, hp, hdue, hdoceq⟩ :=
    (mem_dueSnapshot_iff _ now (now - 60000) doc).mp hdoc
  have hsched : doc.data.status = "scheduled" := by
    rw [hdoceq]
    exact ((isDue_iff now (now - 60000) p.2).mp hdue).2.2
  have hdue' : isDue now (now - 60000) doc.data = true := by
    rw [hdoceq]
    exact hdue
  have hchain := cycle_chain env db0 now (userIdOfParts doc.refParts) doc.id
  rcases MarkChain.rel hchain with heq | hterm
  · rw [hg] at heq
    obtain ⟨u0, hu0, hu0id, hmem⟩ := getNotif_eq_some_mem db0 _ _ _ heq.symm
    have hdoc0 : (⟨doc.id, notifRefParts u0.uid doc.id, doc.data⟩ : SnapDoc) ∈
        dueSnapshot db0 now (now - 60000) :=
      (mem_dueSnapshot_iff db0 now (now - 60000) _).mpr
        ⟨u0, hu0, (doc.id, doc.data), hmem, hdue', rfl⟩
    have hterm0 := cycle_terminal env db0 now hwf hres hfetch _ hdoc0
    have hcoords : userIdOfParts (notifRefParts u0.uid doc.id) =
        userIdOfParts doc.refParts := hu0id
    rw [hcoords] at hterm0
    obtain ⟨d, hd, hs⟩ := hterm0
    rw [hg] at hd
    have hdd : doc.data = d := Option.some.inj hd
    rcases hs with h1 | h1
    · rw [← hdd, hsched] at h1
      exact absurd h1 (by decide)
    · rw [← hdd, hsched] at h1
      exact absurd h1 (by decide)
  · obtain ⟨d, hd, hs⟩ := hterm
    rw [hg] at hd
    have hdd : doc.data = d := Option.some.inj hd
    rcases hs with h1 | h1
    · rw [← hdd, hsched] at h1
      exact absurd h1 (by decide)
    · rw [← hdd, hsched] at h1
      exact absurd h1 (by decide)

/-! ## Token-deletion consequences (per-address reconciliation) -/

theorem userTokenDocs_deleteTokenDoc_self (db : DB) (uid tok : String) :
    (deleteTokenDoc db uid tok).userTokenDocs uid =
      (db.userTokenDocs uid).filter (fun t => !(t.id == tok)) := by
  show DB.userTokenDocs ⟨db.users.map _⟩ uid = _
  unfold DB.userTokenDocs
  rw [find?_map_pred_eq _ _ (fun a => by split <;> rfl)]
  cases hf : db.users.find? (fun x => x.uid == uid) with
  | none => rfl
  | some u0 =>
    have hu0 : (u0.uid == uid) = true := by
      have h := List.find?_some hf
      exact h
    simp only [Option.map_some', hu0, if_true]

theorem tokens_subset_foldlDeletes (env : Env) (uid : String)
    (l : List (Bool × String)) (db : DB) :
    ∀ td ∈ (l.foldl
        (fun db p =>
          if p.1 then db
          else if env.deleteFails uid p.2 then db
          else deleteTokenDoc db uid p.2)
        db).userTokenDocs uid, td ∈ db.userTokenDocs uid := by
  induction l generalizing db with
  | nil => exact fun td htd => htd
  | cons q rest ih =>
    rw [List.foldl_cons]
    intro td htd
    have htd' := ih _ td htd
    by_cases h1 : q.1 = true
    · simpa [h1] using htd'
    · simp only [Bool.not_eq_true] at h1
      by_cases h2 : env.deleteFails uid q.2 = true
      · simpa [h1, h2] using htd'
      · simp only [Bool.not_eq_true] at h2
        simp only [h1, Bool.false_eq_true, if_false, h2] at htd'
        rw [userTokenDocs_deleteTokenDoc_self] at htd'
        exact (List.mem_filter.mp htd').1

theorem foldlDeletes_absent (env : Env) (uid : String)
    (l : List (Bool × String)) (db : DB) (t : String)
    (hmem : (false, t) ∈ l) (hdel : env.deleteFails uid t = false) :
    ∀ td ∈ (l.foldl
        (fun db p =>
          if p.1 then db
          else if env.deleteFails uid p.2 then db
          else deleteTokenDoc db uid p.2)
        db).userTokenDocs uid, td.id ≠ t := by
  induction l generalizing db with
  | nil => cases hmem
  | cons q rest ih =>
    rw [List.foldl_cons]
    rcases List.mem_cons.mp hmem with heq | hrest
    · -- this very pair deletes the token; later steps only delete more
      intro td htd
      have hq1 : q.1 = false := by rw [← heq]
      have hq2 : q.2 = t := by rw [← heq]
      simp only [hq1, Bool.false_eq_true, if_false, hq2, hdel] at htd
      have htd' := tokens_subset_foldlDeletes env uid rest _ td htd
      rw [userTokenDocs_deleteTokenDoc_self] at htd'
      have := (List.mem_filter.mp htd').2
      simpa using this
    · intro td htd
      by_cases h1 : q.1 = true
      · exact ih _ hrest td (by simpa [h1] using htd)
      · simp only [Bool.not_eq_true] at h1
        by_cases h2 : env.deleteFails uid q.2 = true
        · exact ih _ hrest td (by simpa [h1, h2] using htd)
        · simp only [Bool.not_eq_true] at h2
          exact ih _ hrest td (by simpa [h1, h2] using htd)

theorem removeInvalidTokens_absent (env : Env) (db : DB) (uid : String)
    (tokens : List String) (results : List Bool) (t : String)
    (hmem : (false, t) ∈ results.zip tokens)
    (hdel : env.deleteFails uid t = false) :
    ∀ td ∈ (removeInvalidTokens env db uid tokens results).userTokenDocs uid,
      td.id ≠ t := by
  unfold removeInvalidTokens
  exact foldlDeletes_absent env uid (results.zip tokens) db t hmem hdel

theorem no_false_of_failureCount_zero (results : List Bool)
    (h : failureCountOf results = 0) : ∀ b ∈ results, b = true := by
  intro b hb
  by_contra hbne
  have hbf : b = false := by
    cases b
    · rfl
    · exact absurd rfl hbne
  have : b ∈ results.filter (fun x => !x) :=
    List.mem_filter.mpr ⟨hb, by rw [hbf]; rfl⟩
  have hlen : 0 < (results.filter (fun x => !x)).length :=
    List.length_pos.mpr (fun hnil => by rw [hnil] at this; cases this)
  unfold failureCountOf at h
  omega

/-! # Claim theorems -/

/-- C1, counterexample: the claim says a failure while processing one
recipient's notifications (e.g. fetching that recipient's registered
addresses) is caught inside the cycle and the remaining recipients are
still processed.  On the code there is no per-recipient catch: with two
recipients due and the token fetch of the first failing, the cycle
surfaces the error to the caller and the second recipient's notification
is left untouched (still `"scheduled"`). -/
theorem C1_counterexample :
    (checkAndSendNotifications envC1 dbC1 0).result =
      .error "Error fetching fcmTokens" ∧
    (checkAndSendNotifications envC1 dbC1 0).db.getNotif "u2" "n2" =
      some (mkNotif 0 none) := by
  constructor
  · rfl
  · rfl

/-- C1, amended: only gateway send errors are caught inside the cycle
(the cycle completes and returns a count for every gateway behaviour, as
long as the resolver query and every recipient's token fetch succeed);
a resolver failure aborts the cycle, surfaces the error, and mutates
nothing — and a recipient's token-fetch failure likewise aborts the
whole cycle instead of being isolated. -/
theorem C1_failure_isolation (env : Env) (db0 : DB) (now : Int) :
    (env.resolverFails = true →
      checkAndSendNotifications env db0 now =
        ⟨.error "resolver query failed", db0, []⟩)
    ∧ (env.resolverFails = false → (∀ u', env.tokenFetchFails u' = false) →
        ∃ t, (checkAndSendNotifications env db0 now).result = .ok t) :=
  ⟨fun h => cycle_resolverFail env db0 now h,
   fun hres hfetch => cycle_ok_result env db0 now hres hfetch⟩

theorem C1_witness :
    checkAndSendNotifications envC1r dbC1 0 =
      ⟨.error "resolver query failed", dbC1, []⟩ ∧
    ∃ t, (checkAndSendNotifications envC1b dbC1 0).result = .ok t :=
  ⟨(C1_failure_isolation envC1r dbC1 0).1 rfl,
   (C1_failure_isolation envC1b dbC1 0).2 rfl (fun _ => rfl)⟩

/-- C2: every notification selected by the resolver is in a terminal
status (`"sent"` or `"failed"`) after a cycle that completes without
raising (no resolver failure, no token-fetch failure — the only failure
modes that make the cycle raise). -/
theorem C2_terminal_status (env : Env) (db0 : DB) (now : Int)
    (hwf : db0.WF) (hres : env.resolverFails = false)
    (hfetch : ∀ u', env.tokenFetchFails u' = false) :
    ∀ doc ∈ dueSnapshot db0 now (now - 60000),
      ∃ d, (checkAndSendNotifications env db0 now).db.getNotif
          (userIdOfParts doc.refParts) doc.id = some d ∧
        (d.status = "sent" ∨ d.status = "failed") :=
  fun doc hdoc => cycle_terminal env db0 now hwf hres hfetch doc hdoc

theorem C2_witness :
    ∃ d, (checkAndSendNotifications envW dbW 0).db.getNotif "u1" "n1" =
        some d ∧ (d.status = "sent" ∨ d.status = "failed") :=
  C2_terminal_status envW dbW 0 (by decide) rfl (fun _ => rfl) docW (by decide)

/-- C3: the resolver selects exactly the notifications with status
`"scheduled"` (the pending state) and fire time in the closed interval
`[now − 60000, now]`; it groups them by the user id derived from the
document path; a pending notification outside the window is left
completely unmodified by the cycle; and an empty due set makes the cycle
return a sent-count of 0 without touching anything. -/
theorem C3_resolver_window (env : Env) (db0 : DB) (now : Int) :
    (∀ doc, doc ∈ dueSnapshot db0 now (now - 60000) ↔
      ∃ u ∈ db0.users, ∃ p ∈ u.pushNotifications,
        (p.2.status = "scheduled" ∧ now - 60000 ≤ p.2.fireAt ∧
          p.2.fireAt ≤ now) ∧
        doc = ⟨p.1, notifRefParts u.uid p.1, p.2⟩)
    ∧ (∀ g ∈ groupByUser (dueSnapshot db0 now (now - 60000)), ∀ doc ∈ g.2,
        userIdOfParts doc.refParts = g.1)
    ∧ (∀ doc ∈ dueSnapshot db0 now (now - 60000),
        ∃ g ∈ groupByUser (dueSnapshot db0 now (now - 60000)),
          g.1 = userIdOfParts doc.refParts ∧ doc ∈ g.2)
    ∧ (db0.WF → ∀ u n d, db0.getNotif u n = some d →
        d.status = "scheduled" →
        (d.fireAt < now - 60000 ∨ now < d.fireAt) →
        (checkAndSendNotifications env db0 now).db.getNotif u n = some d)
    ∧ (dueSnapshot db0 now (now - 60000) = [] → env.resolverFails = false →
        checkAndSendNotifications env db0 now = ⟨.ok 0, db0, []⟩) := by
  refine ⟨?_, ?_, ?_, ?_, ?_⟩
  · intro doc
    rw [mem_dueSnapshot_iff]
    constructor
    · rintro ⟨u, hu, p, hp, hdue, rfl⟩
      have hd := (isDue_iff _ _ _).mp hdue
      exact ⟨u, hu, p, hp, ⟨hd.2.2, hd.2.1, hd.1⟩, rfl⟩
    · rintro ⟨u, hu, p, hp, ⟨h1, h2, h3⟩, rfl⟩
      exact ⟨u, hu, p, hp, (isDue_iff _ _ _).mpr ⟨h3, h2, h1⟩, rfl⟩
  · exact fun g hg doc hd => (groupByUser_sound _ g hg doc hd).2
  · exact fun doc hdoc => groupByUser_complete _ doc hdoc
  · intro hwf u n d hd hsched hwin
    rw [cycle_frame env db0 now u n ?_]
    · exact hd
    · intro doc hdoc heq
      obtain ⟨u', hu', p, hp', hdue, hdoceq⟩ :=
        (mem_dueSnapshot_iff _ _ _ doc).mp hdoc
      have hpm := getNotif_of_mem_snapshot db0 now (now - 60000) doc hwf hdoc
      subst hdoceq
      have hparts : notifRefParts u'.uid p.1 = notifRefParts u n := heq
      obtain ⟨hu, hn⟩ := notifRefParts_inj hparts
      have hpm' : db0.getNotif u'.uid p.1 = some p.2 := hpm
      rw [hu, hn, hd] at hpm'
      have hp2 : p.2 = d := (Option.some.inj hpm').symm
      have hiv := (isDue_iff _ _ _).mp hdue
      rw [hp2] at hiv
      rcases hwin with h | h
      · omega
      · omega
  · exact fun hemp hres => cycle_empty env db0 now hres hemp

theorem C3_witness :
    (checkAndSendNotifications envW dbW 0).db.getNotif "u1" "nOld" =
      some (mkNotif (-999999) none) :=
  (C3_resolver_window envW dbW 0).2.2.2.1 (by decide) "u1" "nOld"
    (mkNotif (-999999) none) (by decide) rfl (by decide)

/-- C4: a recipient with zero registered addresses has each of its due
notifications marked terminal-`"sent"` with the note that no FCM tokens
were available, and its group's processing makes no gateway call. -/
theorem C4_no_addresses (env : Env) (db0 : DB) (now : Int)
    (hwf : db0.WF) (hres : env.resolverFails = false)
    (hfetch : ∀ u', env.tokenFetchFails u' = false)
    (u : UserDoc) (hu : u ∈ db0.users) (htok : u.fcmTokens = []) :
    (∀ doc ∈ dueSnapshot db0 now (now - 60000),
      userIdOfParts doc.refParts = u.uid →
      ∃ d, (checkAndSendNotifications env db0 now).db.getNotif u.uid
          doc.id = some d ∧
        d.status = "sent" ∧ d.note = some "No FCM tokens available")
    ∧ ∀ (ns : List SnapDoc) (s : CycleState),
        s.db.userTokenDocs u.uid = [] →
        (processGroupBody env u.uid ns s).callLog = s.callLog :=
  ⟨fun doc hdoc hkey =>
      cycle_sentNoTok env db0 now hwf hres hfetch u hu htok doc hdoc hkey,
   fun ns s h => processGroupBody_noCalls env u.uid ns s h⟩

theorem C4_witness :
    (∃ d, (checkAndSendNotifications envW dbW4 0).db.getNotif "u1" "n1" =
        some d ∧ d.status = "sent" ∧
        d.note = some "No FCM tokens available") ∧
    (processGroupBody envW "u1" [] ⟨dbW4, 0, []⟩).callLog = [] :=
  ⟨(C4_no_addresses envW dbW4 0 (by decide) rfl (fun _ => rfl)
      ⟨"u1", [], [("n1", mkNotif 0 none)]⟩ (by decide) rfl).1
      ⟨"n1", notifRefParts "u1" "n1", mkNotif 0 none⟩ (by decide) rfl,
   (C4_no_addresses envW dbW4 0 (by decide) rfl (fun _ => rfl)
      ⟨"u1", [], [("n1", mkNotif 0 none)]⟩ (by decide) rfl).2 []
      ⟨dbW4, 0, []⟩ rfl⟩

/-- C8: running the cycle again immediately after a completed cycle, at
the same instant, returns `.ok 0`, leaves the store exactly as the first
cycle left it, and makes no gateway call — because the first cycle moved
every selected notification out of the `"scheduled"` status and the
resolver selects only `"scheduled"` notifications. -/
theorem C8_second_cycle_noop (env env2 : Env) (db0 : DB) (now : Int)
    (hwf : db0.WF) (hres : env.resolverFails = false)
    (hfetch : ∀ u', env.tokenFetchFails u' = false)
    (hres2 : env2.resolverFails = false) :
    checkAndSendNotifications env2
        (checkAndSendNotifications env db0 now).db now =
      ⟨.ok 0, (checkAndSendNotifications env db0 now).db, []⟩ :=
  cycle_empty env2 _ now hres2
    (dueSnapshot_after_cycle env db0 now hwf hres hfetch)

theorem C8_witness :
    checkAndSendNotifications envW
        (checkAndSendNotifications envW dbW 0).db 0 =
      ⟨.ok 0, (checkAndSendNotifications envW dbW 0).db, []⟩ :=
  C8_second_cycle_noop envW envW dbW 0 (by decide) rfl (fun _ => rfl) rfl

/-- C9: the device/other split of a recipient's token docs is an
exhaustive partition, so with at least one registered address the two
halves cannot both be empty; consequently a cycle never writes the
no-tokens-at-all `"failed"` note onto any notification that did not
already carry it. -/
theorem C9_partition_exhaustive :
    (∀ (tokenDocs : List TokenDoc) (dev : String),
      (deviceTokensOf tokenDocs dev).length +
        (otherTokensOf tokenDocs dev).length = tokenDocs.length)
    ∧ (∀ (tokenDocs : List TokenDoc) (dev : String), tokenDocs ≠ [] →
        deviceTokensOf tokenDocs dev = [] →
        otherTokensOf tokenDocs dev ≠ [])
    ∧ (∀ (env : Env) (db0 : DB) (now : Int) (u n : String),
        (∀ d, db0.getNotif u n = some d →
          d.note ≠ some "No tokens available for this user") →
        ∀ d, (checkAndSendNotifications env db0 now).db.getNotif u n =
            some d →
          d.note ≠ some "No tokens available for this user") := by
  refine ⟨deviceTokens_otherTokens_length, ?_, ?_⟩
  · intro td dev hne hdev hoth
    apply hne
    have h := deviceTokens_otherTokens_length td dev
    rw [hdev, hoth] at h
    have hlen : td.length = 0 := by simpa using h.symm
    exact List.length_eq_zero.mp hlen
  · intro env db0 now u n hn d hd
    exact MarkChain.notePres (cycle_chain env db0 now u n) hn d hd

theorem C9_witness :
    otherTokensOf [⟨"t1", some "y"⟩] "x" ≠ [] ∧
    dOut9.note ≠ some "No tokens available for this user" :=
  ⟨C9_partition_exhaustive.2.1 [⟨"t1", some "y"⟩] "x" (by decide) (by decide),
   C9_partition_exhaustive.2.2 envW9 dbW9 0 "u1" "n1"
    (fun d hd => by
      have h : some (mkNotif 0 (some "x")) = some d := by
        rw [← hd]
        rfl
      cases Option.some.inj h
      decide)
    dOut9 (by decide)⟩

/-- C5: for a notification carrying an originating-device tag whose
recipient has matching addresses, delivery is attempted to the matching
addresses first; on wholesale gateway failure the notification is
recorded terminal-`"failed"` with the error text and timestamp (and the
fallback note), no later write changes the store again, and a secondary
delivery to the non-matching addresses is attempted exactly when they
exist — the statement quantifies over the whole environment, so it holds
whether that secondary call succeeds or fails. -/
theorem C5_device_first_then_fallback (env : Env) (uid : String)
    (tokens : List String) (tokenDocs : List TokenDoc) (nd : SnapDoc)
    (s : CycleState) (dev msg : String) (u n : String)
    (hdev : nd.data.deviceId = some dev)
    (hmatch : deviceTokensOf tokenDocs dev ≠ [])
    (hgw : env.gateway s.callLog.length = .failure msg)
    (hp : nd.refParts = notifRefParts u n) :
    ((processNotification env uid tokens tokenDocs nd s).db =
      updateNotifData s.db nd.refParts (markFailedDevice env.serverTs msg))
    ∧ ((s.db.getNotif u n).isSome = true →
        ∃ d, (processNotification env uid tokens tokenDocs nd s).db.getNotif
            u n = some d ∧
          d.status = "failed" ∧ d.error = some msg ∧
          d.failedAt = some env.serverTs ∧
          d.note = some "Failed to send to creating device")
    ∧ ((processNotification env uid tokens tokenDocs nd s).callLog =
        s.callLog ++ [deviceTokensOf tokenDocs dev] ++
          (if otherTokensOf tokenDocs dev ≠ [] then
            [otherTokensOf tokenDocs dev] else [])) := by
  have hl : 0 < (deviceTokensOf tokenDocs dev).length :=
    List.length_pos.mpr hmatch
  have hred := pn_device_fail env uid tokens tokenDocs nd s dev msg hdev hl hgw
  by_cases ho : 0 < (otherTokensOf tokenDocs dev).length
  · have hone : otherTokensOf tokenDocs dev ≠ [] := List.length_pos.mp ho
    rw [if_pos ho] at hred
    cases hg2 : env.gateway
        (s.callLog ++ [deviceTokensOf tokenDocs dev]).length with
    | success r2 =>
      rw [hg2] at hred
      rw [hred]
      refine ⟨rfl, ?_, ?_⟩
      · intro hpres
        show ∃ d, (updateNotifData s.db nd.refParts
          (markFailedDevice env.serverTs msg)).getNotif u n = some d ∧ _
        rw [hp, getNotif_update_self]
        obtain ⟨d0, hd0⟩ := Option.isSome_iff_exists.mp hpres
        rw [hd0]
        exact ⟨_, rfl, rfl, rfl, rfl, rfl⟩
      · simp [hone, List.append_assoc]
    | failure m2 =>
      rw [hg2] at hred
      rw [hred]
      refine ⟨rfl, ?_, ?_⟩
      · intro hpres
        show ∃ d, (updateNotifData s.db nd.refParts
          (markFailedDevice env.serverTs msg)).getNotif u n = some d ∧ _
        rw [hp, getNotif_update_self]
        obtain ⟨d0, hd0⟩ := Option.isSome_iff_exists.mp hpres
        rw [hd0]
        exact ⟨_, rfl, rfl, rfl, rfl, rfl⟩
      · simp [hone, List.append_assoc]
  · have hzero : otherTokensOf tokenDocs dev = [] :=
      List.length_eq_zero.mp (by omega)
    rw [if_neg ho] at hred
    rw [hred]
    refine ⟨rfl, ?_, ?_⟩
    · intro hpres
      show ∃ d, (updateNotifData s.db nd.refParts
        (markFailedDevice env.serverTs msg)).getNotif u n = some d ∧ _
      rw [hp, getNotif_update_self]
      obtain ⟨d0, hd0⟩ := Option.isSome_iff_exists.mp hpres
      rw [hd0]
      exact ⟨_, rfl, rfl, rfl, rfl, rfl⟩
    · simp [hzero]

theorem C5_witness :
    ((processNotification envW5 "u1" ["tA", "tB"] tdW5 ndW5 sW5).callLog =
      [["tA"], ["tB"]]) ∧
    ∃ d, (processNotification envW5 "u1" ["tA", "tB"] tdW5 ndW5
        sW5).db.getNotif "u1" "n1" = some d ∧
      d.status = "failed" ∧ d.error = some "net" ∧ d.failedAt = some 5 ∧
      d.note = some "Failed to send to creating device" := by
  have h := C5_device_first_then_fallback envW5 "u1" ["tA", "tB"] tdW5 ndW5
    sW5 "x" "net" "u1" "n1" rfl (by decide) rfl rfl
  refine ⟨?_, h.2.1 (by decide)⟩
  rw [h.2.2]
  decide

/-- C6: on every primary gateway call that returns a per-address outcome
list (broadcast, originating-device, or sole-target fallback), the
notification is marked terminal-`"sent"` even when some or all addresses
are reported failed; every address reported failed whose deletion does
not error is absent from the recipient's registry afterwards; and
because the statement quantifies over the deletion-failure oracle, a
failed deletion never blocks or reverts the `"sent"` finalization. -/
theorem C6_per_address_reconciliation (env : Env) (uid : String)
    (tokens : List String) (tokenDocs : List TokenDoc) (nd : SnapDoc)
    (s : CycleState) (u n : String) (results : List Bool)
    (hp : nd.refParts = notifRefParts u n)
    (hpres : (s.db.getNotif u n).isSome = true) :
    (nd.data.deviceId = none →
      env.gateway s.callLog.length = .success results →
      ((∃ d, (processNotification env uid tokens tokenDocs nd
          s).db.getNotif u n = some d ∧ d.status = "sent")
       ∧ ∀ t, (false, t) ∈ results.zip tokens →
          env.deleteFails uid t = false →
          ∀ td ∈ (processNotification env uid tokens tokenDocs nd
              s).db.userTokenDocs uid, td.id ≠ t))
    ∧ (∀ dev, nd.data.deviceId = some dev →
        deviceTokensOf tokenDocs dev ≠ [] →
        env.gateway s.callLog.length = .success results →
        ((∃ d, (processNotification env uid tokens tokenDocs nd
            s).db.getNotif u n = some d ∧ d.status = "sent")
         ∧ ∀ t, (false, t) ∈ results.zip (deviceTokensOf tokenDocs dev) →
            env.deleteFails uid t = false →
            ∀ td ∈ (processNotification env uid tokens tokenDocs nd
                s).db.userTokenDocs uid, td.id ≠ t))
    ∧ (∀ dev, nd.data.deviceId = some dev →
        deviceTokensOf tokenDocs dev = [] →
        otherTokensOf tokenDocs dev ≠ [] →
        env.gateway s.callLog.length = .success results →
        ((∃ d, (processNotification env uid tokens tokenDocs nd
            s).db.getNotif u n = some d ∧ d.status = "sent")
         ∧ ∀ t, (false, t) ∈ results.zip (otherTokensOf tokenDocs dev) →
            env.deleteFails uid t = false →
            ∀ td ∈ (processNotification env uid tokens tokenDocs nd
                s).db.userTokenDocs uid, td.id ≠ t)) := by
  refine ⟨?_, ?_, ?_⟩
  · intro hdev hgw
    have hred := pn_broadcast_ok env uid tokens tokenDocs nd s results hdev hgw
    constructor
    · rw [hred]
      by_cases hfc : 0 < failureCountOf results
      · simp only [hfc, if_true]
        show ∃ d, (removeInvalidTokens env _ uid tokens
          results).getNotif u n = some d ∧ _
        rw [getNotif_removeInvalidTokens, hp, getNotif_update_self]
        obtain ⟨d0, hd0⟩ := Option.isSome_iff_exists.mp hpres
        rw [hd0]
        exact ⟨_, rfl, rfl⟩
      · simp only [hfc, if_false]
        show ∃ d, (updateNotifData s.db nd.refParts _).getNotif u n
          = some d ∧ _
        rw [hp, getNotif_update_self]
        obtain ⟨d0, hd0⟩ := Option.isSome_iff_exists.mp hpres
        rw [hd0]
        exact ⟨_, rfl, rfl⟩
    · intro t hmem hdel td htd
      rw [hred] at htd
      by_cases hfc : 0 < failureCountOf results
      · simp only [hfc, if_true] at htd
        exact removeInvalidTokens_absent env _ uid tokens results t
          hmem hdel td htd
      · exfalso
        have hfc0 : failureCountOf results = 0 := by omega
        have hall := no_false_of_failureCount_zero results hfc0 false
          (List.of_mem_zip hmem).1
        exact absurd hall (by decide)
  · intro dev hdev hmatch hgw
    have hl : 0 < (deviceTokensOf tokenDocs dev).length :=
      List.length_pos.mpr hmatch
    have hred := pn_device_ok env uid tokens tokenDocs nd s dev results
      hdev hl hgw
    constructor
    · rw [hred]
      by_cases hfc : 0 < failureCountOf results
      · simp only [hfc, if_true]
        show ∃ d, (removeInvalidTokens env _ uid
          (deviceTokensOf tokenDocs dev) results).getNotif u n = some d ∧ _
        rw [getNotif_removeInvalidTokens, hp, getNotif_update_self]
        obtain ⟨d0, hd0⟩ := Option.isSome_iff_exists.mp hpres
        rw [hd0]
        exact ⟨_, rfl, rfl⟩
      · simp only [hfc, if_false]
        show ∃ d, (updateNotifData s.db nd.refParts _).getNotif u n
          = some d ∧ _
        rw [hp, getNotif_update_self]
        obtain ⟨d0, hd0⟩ := Option.isSome_iff_exists.mp hpres
        rw [hd0]
        exact ⟨_, rfl, rfl⟩
    · intro t hmem hdel td htd
      rw [hred] at htd
      by_cases hfc : 0 < failureCountOf results
      · simp only [hfc, if_true] at htd
        exact removeInvalidTokens_absent env _ uid
          (deviceTokensOf tokenDocs dev) results t hmem hdel td htd
      · exfalso
        have hfc0 : failureCountOf results = 0 := by omega
        have hall := no_false_of_failureCount_zero results hfc0 false
          (List.of_mem_zip hmem).1
        exact absurd hall (by decide)
  · intro dev hdev hempty hother hgw
    have hl : ¬ 0 < (deviceTokensOf tokenDocs dev).length := by
      rw [hempty]
      simp
    have ho : 0 < (otherTokensOf tokenDocs dev).length :=
      List.length_pos.mpr hother
    have hred := pn_fallback_ok env uid tokens tokenDocs nd s dev results
      hdev hl ho hgw
    constructor
    · rw [hred]
      by_cases hfc : 0 < failureCountOf results
      · simp only [hfc, if_true]
        show ∃ d, (removeInvalidTokens env _ uid
          (otherTokensOf tokenDocs dev) results).getNotif u n = some d ∧ _
        rw [getNotif_removeInvalidTokens, hp, getNotif_update_self]
        obtain ⟨d0, hd0⟩ := Option.isSome_iff_exists.mp hpres
        rw [hd0]
        exact ⟨_, rfl, rfl⟩
      · simp only [hfc, if_false]
        show ∃ d, (updateNotifData s.db nd.refParts _).getNotif u n
          = some d ∧ _
        rw [hp, getNotif_update_self]
        obtain ⟨d0, hd0⟩ := Option.isSome_iff_exists.mp hpres
        rw [hd0]
        exact ⟨_, rfl, rfl⟩
    · intro t hmem hdel td htd
      rw [hred] at htd
      by_cases hfc : 0 < failureCountOf results
      · simp only [hfc, if_true] at htd
        exact removeInvalidTokens_absent env _ uid
          (otherTokensOf tokenDocs dev) results t hmem hdel td htd
      · exfalso
        have hfc0 : failureCountOf results = 0 := by omega
        have hall := no_false_of_failureCount_zero results hfc0 false
          (List.of_mem_zip hmem).1
        exact absurd hall (by decide)

theorem C6_witness :
    (∃ d, (processNotification envW6 "u1" ["tA", "tB"] tdW6 ndW6
        sW6).db.getNotif "u1" "n1" = some d ∧ d.status = "sent") ∧
    (⟨"tB", none⟩ : TokenDoc) ∉
      (processNotification envW6 "u1" ["tA", "tB"] tdW6 ndW6
        sW6).db.userTokenDocs "u1" := by
  have h := (C6_per_address_reconciliation envW6 "u1" ["tA", "tB"] tdW6
    ndW6 sW6 "u1" "n1" [true, false] rfl (by decide)).1 rfl rfl
  refine ⟨h.1, fun hmem => ?_⟩
  exact h.2 "tB" (by decide) rfl ⟨"tB", none⟩ hmem rfl

/-- C7, counterexample: the claim says every terminal-`"sent"` update
records a description of the chosen target set, including on the
broadcast path.  On the code, the broadcast-path update (lines 192-199)
records only the counts and the timestamp: on a concrete broadcast run
the final document has `status = "sent"` with counts and timestamp
written, but `sentToDevice = none` and `note = none` — no description of
the target set is recorded. -/
theorem C7_counterexample :
    ∃ d, (checkAndSendNotifications envW dbW 0).db.getNotif "u1" "n1" =
        some d ∧
      d.status = "sent" ∧ d.fcmResponse = some ⟨1, 0⟩ ∧
      d.sentAt = some 5 ∧ d.sentToDevice = none ∧ d.note = none :=
  ⟨⟨0, "sent", none, none, none, none, none, none, some 5, none, none,
    none, none, some ⟨1, 0⟩⟩,
   by decide, rfl, rfl, rfl, rfl, rfl⟩

/-- C7, amended: every sent-path update records the success/failure
counts and the timestamp, but only the originating-device path records a
target description (`sentToDevice`) and only the fallback-other path
records a descriptive note; the broadcast path's update leaves
`sentToDevice` and `note` exactly as they were, recording no description
of the chosen target set. -/
theorem C7_sent_update_fields (env : Env) (uid : String)
    (tokens : List String) (tokenDocs : List TokenDoc) (nd : SnapDoc)
    (s : CycleState) (u n : String) (d : NotifData)
    (hp : nd.refParts = notifRefParts u n)
    (hd : s.db.getNotif u n = some d) :
    (∀ results, nd.data.deviceId = none →
      env.gateway s.callLog.length = .success results →
      ((processNotification env uid tokens tokenDocs nd s).db.getNotif u n =
        some (markSentBroadcast env.serverTs (successCountOf results)
          (failureCountOf results) d)
       ∧ (markSentBroadcast env.serverTs (successCountOf results)
          (failureCountOf results) d).sentToDevice = d.sentToDevice
       ∧ (markSentBroadcast env.serverTs (successCountOf results)
          (failureCountOf results) d).note = d.note))
    ∧ (∀ dev results, nd.data.deviceId = some dev →
        deviceTokensOf tokenDocs dev ≠ [] →
        env.gateway s.callLog.length = .success results →
        ((processNotification env uid tokens tokenDocs nd s).db.getNotif
            u n =
          some (markSentToDevice env.serverTs dev (successCountOf results)
            (failureCountOf results) d)
         ∧ (markSentToDevice env.serverTs dev (successCountOf results)
            (failureCountOf results) d).sentToDevice = some dev))
    ∧ (∀ dev results, nd.data.deviceId = some dev →
        deviceTokensOf tokenDocs dev = [] →
        otherTokensOf tokenDocs dev ≠ [] →
        env.gateway s.callLog.length = .success results →
        ((processNotification env uid tokens tokenDocs nd s).db.getNotif
            u n =
          some (markSentFallback env.serverTs (successCountOf results)
            (failureCountOf results) d)
         ∧ (markSentFallback env.serverTs (successCountOf results)
            (failureCountOf results) d).note =
            some "Sent to all available devices (no matching device token)")) := by
  refine ⟨?_, ?_, ?_⟩
  · intro results hdev hgw
    have hred := pn_broadcast_ok env uid tokens tokenDocs nd s results
      hdev hgw
    refine ⟨?_, rfl, rfl⟩
    rw [hred]
    by_cases hfc : 0 < failureCountOf results
    · simp only [hfc, if_true]
      show (removeInvalidTokens env _ uid tokens results).getNotif u n = _
      rw [getNotif_removeInvalidTokens, hp, getNotif_update_self, hd]
      rfl
    · simp only [hfc, if_false]
      show (updateNotifData s.db nd.refParts _).getNotif u n = _
      rw [hp, getNotif_update_self, hd]
      rfl
  · intro dev results hdev hmatch hgw
    have hl : 0 < (deviceTokensOf tokenDocs dev).length :=
      List.length_pos.mpr hmatch
    have hred := pn_device_ok env uid tokens tokenDocs nd s dev results
      hdev hl hgw
    refine ⟨?_, rfl⟩
    rw [hred]
    by_cases hfc : 0 < failureCountOf results
    · simp only [hfc, if_true]
      show (removeInvalidTokens env _ uid (deviceTokensOf tokenDocs dev)
        results).getNotif u n = _
      rw [getNotif_removeInvalidTokens, hp, getNotif_update_self, hd]
      rfl
    · simp only [hfc, if_false]
      show (updateNotifData s.db nd.refParts _).getNotif u n = _
      rw [hp, getNotif_update_self, hd]
      rfl
  · intro dev results hdev hempty hother hgw
    have hl : ¬ 0 < (deviceTokensOf tokenDocs dev).length := by
      rw [hempty]
      simp
    have ho : 0 < (otherTokensOf tokenDocs dev).length :=
      List.length_pos.mpr hother
    have hred := pn_fallback_ok env uid tokens tokenDocs nd s dev results
      hdev hl ho hgw
    refine ⟨?_, rfl⟩
    rw [hred]
    by_cases hfc : 0 < failureCountOf results
    · simp only [hfc, if_true]
      show (removeInvalidTokens env _ uid (otherTokensOf tokenDocs dev)
        results).getNotif u n = _
      rw [getNotif_removeInvalidTokens, hp, getNotif_update_self, hd]
      rfl
    · simp only [hfc, if_false]
      show (updateNotifData s.db nd.refParts _).getNotif u n = _
      rw [hp, getNotif_update_self, hd]
      rfl

theorem C7_witness :
    (processNotification envW6 "u1" ["tA", "tB"] tdW6 ndW6
        sW6).db.getNotif "u1" "n1" =
      some (markSentBroadcast 5 1 1 (mkNotif 0 none)) ∧
    (markSentBroadcast 5 1 1 (mkNotif 0 none)).sentToDevice = none ∧
    (markSentBroadcast 5 1 1 (mkNotif 0 none)).note = none :=
  (C7_sent_update_fields envW6 "u1" ["tA", "tB"] tdW6 ndW6 sW6 "u1" "n1"
    (mkNotif 0 none) rfl (by decide)).1 [true, false] rfl rfl

/-- C10: the secondary delivery attempt made after a wholesale failure of
the matching-device send leaves the address registry and the
notification store untouched: the final store is exactly the single
`"failed"` update, every user's token subcollection is unchanged, and
the attempt's only other effect is adding its success count to the
running total (nothing when the secondary call also fails wholesale). -/
theorem C10_secondary_attempt_frame (env : Env) (uid : String)
    (tokens : List String) (tokenDocs : List TokenDoc) (nd : SnapDoc)
    (s : CycleState) (dev msg : String) (u n : String)
    (hdev : nd.data.deviceId = some dev)
    (hmatch : deviceTokensOf tokenDocs dev ≠ [])
    (hother : otherTokensOf tokenDocs dev ≠ [])
    (hgw : env.gateway s.callLog.length = .failure msg)
    (hp : nd.refParts = notifRefParts u n) :
    ((processNotification env uid tokens tokenDocs nd s).db =
      updateNotifData s.db nd.refParts (markFailedDevice env.serverTs msg))
    ∧ (∀ u', (processNotification env uid tokens tokenDocs nd
        s).db.userTokenDocs u' = s.db.userTokenDocs u')
    ∧ (∀ r2, env.gateway (s.callLog.length + 1) = .success r2 →
        (processNotification env uid tokens tokenDocs nd s).totalSent =
          s.totalSent + successCountOf r2)
    ∧ (∀ m2, env.gateway (s.callLog.length + 1) = .failure m2 →
        (processNotification env uid tokens tokenDocs nd s).totalSent =
          s.totalSent) := by
  have hl : 0 < (deviceTokensOf tokenDocs dev).length :=
    List.length_pos.mpr hmatch
  have ho : 0 < (otherTokensOf tokenDocs dev).length :=
    List.length_pos.mpr hother
  have hlen : (s.callLog ++ [deviceTokensOf tokenDocs dev]).length =
      s.callLog.length + 1 := by
    simp
  have hred := pn_device_fail env uid tokens tokenDocs nd s dev msg hdev hl hgw
  rw [if_pos ho] at hred
  cases hg2 : env.gateway
      (s.callLog ++ [deviceTokensOf tokenDocs dev]).length with
  | success r2 =>
    rw [hg2] at hred
    rw [hlen] at hg2
    rw [hred]
    refine ⟨rfl, ?_, ?_, ?_⟩
    · intro u'
      show (updateNotifData s.db nd.refParts _).userTokenDocs u' = _
      rw [hp]
      exact userTokenDocs_update _ _ _ _ _
    · intro r2' h2
      have heq := hg2.symm.trans h2
      cases heq
      rfl
    · intro m2 h2
      have heq := hg2.symm.trans h2
      cases heq
  | failure m2 =>
    rw [hg2] at hred
    rw [hlen] at hg2
    rw [hred]
    refine ⟨rfl, ?_, ?_, ?_⟩
    · intro u'
      show (updateNotifData s.db nd.refParts _).userTokenDocs u' = _
      rw [hp]
      exact userTokenDocs_update _ _ _ _ _
    · intro r2' h2
      have heq := hg2.symm.trans h2
      cases heq
    · intro m2' h2
      rfl

theorem C10_witness :
    ((processNotification envW5 "u1" ["tA", "tB"] tdW5 ndW5
        sW5).db.userTokenDocs "u1" = tdW5) ∧
    (processNotification envW5 "u1" ["tA", "tB"] tdW5 ndW5
        sW5).totalSent = 1 := by
  have h := C10_secondary_attempt_frame envW5 "u1" ["tA", "tB"] tdW5 ndW5
    sW5 "x" "net" "u1" "n1" rfl (by decide) (by decide) rfl rfl
  constructor
  · rw [h.2.1 "u1"]
    decide
  · rw [h.2.2.1 [true] rfl]
    decide
